import Mathlib

/-!
Verification of the analytics core of `reports.py` (bggstats).

The pandas DataFrames are embedded as lists of rows.  `groupby` is
modelled as "distinct keys in ascending order, aggregate over the fiber
of each key", which is pandas' documented behaviour (`sort=True`,
`dropna=True`).  `pd.merge` is a nested-loop equi-join, `sort_values` is
`List.mergeSort` with the corresponding boolean key comparison, and the
in-place column assignments (`plays["before"] = ...`) are explicit
updates of an `extra` association list carried by every play row.
-/

/-- Calendar date at day granularity: `base_data` normalises the `date`
column with `pd.to_datetime`, and the reports only ever use whole days. -/
structure Date where
  year : Nat
  month : Nat
  day : Nat
  deriving DecidableEq, Repr

/-- Gregorian leap-year rule, as used by `datetime`. -/
def isLeap (y : Nat) : Bool := (y % 4 == 0 && y % 100 != 0) || y % 400 == 0

/-- Length of month `m` (1-based) of year `y`. -/
def monthLength (y m : Nat) : Nat :=
  if m = 2 then (if isLeap y then 29 else 28)
  else if m = 4 ∨ m = 6 ∨ m = 9 ∨ m = 11 then 30
  else 31

/-- Days in the months of year `y` strictly before month `m`. -/
def daysBeforeMonth (y m : Nat) : Nat :=
  ((List.range (m - 1)).map (fun k => monthLength y (k + 1))).sum

/-- Proleptic-Gregorian ordinal of a date (the value of
`datetime.date.toordinal`): day 1 is 0001-01-01.  Comparison and
subtraction of `datetime` values coincide with comparison and
subtraction of ordinals. -/
def Date.toOrdinal (d : Date) : Nat :=
  365 * (d.year - 1) + (d.year - 1) / 4 - (d.year - 1) / 100 + (d.year - 1) / 400
    + daysBeforeMonth d.year d.month + d.day

/-- `datetime` comparison `a <= b`. -/
def dateLE (a b : Date) : Bool := decide (a.toOrdinal ≤ b.toOrdinal)

/-- `datetime` comparison `a < b`. -/
def dateLT (a b : Date) : Bool := decide (a.toOrdinal < b.toOrdinal)

/-- The calendar successor of a date (`+ timedelta(days=1)`). -/
def nextDay (d : Date) : Date :=
  if d.day < monthLength d.year d.month then ⟨d.year, d.month, d.day + 1⟩
  else if d.month < 12 then ⟨d.year, d.month + 1, 1⟩
  else ⟨d.year + 1, 1, 1⟩

/-- `date + timedelta(days=n)`. -/
def addDays (d : Date) : Nat → Date
  | 0 => d
  | n + 1 => nextDay (addDays d n)

example : Date.toOrdinal ⟨1, 1, 1⟩ = 1 := by decide
example : Date.toOrdinal ⟨2000, 1, 1⟩ = 730120 := by decide
example : Date.toOrdinal ⟨2020, 3, 1⟩ - Date.toOrdinal ⟨2020, 2, 1⟩ = 29 := by decide
example : addDays ⟨2000, 2, 28⟩ 1 = ⟨2000, 2, 29⟩ := by decide
example : addDays ⟨2000, 12, 31⟩ 1 = ⟨2001, 1, 1⟩ := by decide

/-- A persisted play row (`plays` table): one log entry of `quantity`
sessions of game `gameid` on `date`. -/
structure Play where
  playid : Nat
  gameid : Nat
  date : Date
  quantity : Int
  deriving DecidableEq, Repr

/-- A dynamically typed DataFrame cell, for the helper columns the
report functions assign onto the plays frame. -/
inductive Cell where
  | int (i : Int)
  | date (d : Date)
  | na
  deriving DecidableEq, Repr

/-- A row of the in-memory plays DataFrame: the persisted play plus the
extra columns report code has assigned in place (`plays["before"] = ...`),
in insertion order. -/
structure PRow where
  play : Play
  extra : List (String × Cell)
  deriving DecidableEq, Repr

/-- A persisted game row (`games` table).  The catalog columns no report
reads (`min_players`, `max_players`, `playing_time`, `rating_average`,
`weight`) are omitted.  `rank` and `year` are nullable in the schema. -/
structure Game where
  gameid : Nat
  name : String
  expansion : Int
  rank : Option Int
  year : Option Int
  deriving DecidableEq, Repr

/-- A persisted collection row (`collectionitems` table); `rating` is
nullable. -/
structure CollectionItem where
  username : String
  gameid : Nat
  owned : Int
  rating : Option Int
  deriving DecidableEq, Repr

/-! ### Cell assignment on the plays frame -/

/-- Write value `c` under key `name`, replacing an existing binding in
place or appending a fresh column at the end (pandas column
assignment). -/
def writeCell (name : String) (c : Cell) : List (String × Cell) → List (String × Cell)
  | [] => [(name, c)]
  | kv :: kvs => if kv.1 = name then (name, c) :: kvs else kv :: writeCell name c kvs

/-- Read the cell stored under `name` (NA when the column is absent). -/
def getCell (name : String) : List (String × Cell) → Cell
  | [] => Cell.na
  | kv :: kvs => if kv.1 = name then kv.2 else getCell name kvs

/-- Whole-column assignment `plays[name] = f(row)`. -/
def setCol (name : String) (f : Play → Cell) (rows : List PRow) : List PRow :=
  rows.map (fun r => ⟨r.play, writeCell name (f r.play) r.extra⟩)

/-- Masked assignment `plays.loc[pred, [name]] = f(row)`. -/
def setColWhere (name : String) (pred : Play → Bool) (f : Play → Cell)
    (rows : List PRow) : List PRow :=
  rows.map (fun r =>
    if pred r.play then ⟨r.play, writeCell name (f r.play) r.extra⟩ else r)

/-- Numeric view of a cell (the columns summed by the reports always
hold integers when they are read). -/
def cellInt : Cell → Int
  | .int i => i
  | _ => 0

/-- Date view of a cell; NA and non-dates are `none` (skipped by
pandas `max`/`min`). -/
def cellDate : Cell → Option Date
  | .date d => some d
  | _ => none

theorem getCell_writeCell_same (name : String) (c : Cell) (kvs : List (String × Cell)) :
    getCell name (writeCell name c kvs) = c := by
  induction kvs with
  | nil => simp [getCell, writeCell]
  | cons kv kvs ih =>
    by_cases h : kv.1 = name
    · simp [getCell, writeCell, h]
    · simpa [getCell, writeCell, h] using ih

theorem getCell_writeCell_other (name other : String) (c : Cell)
    (kvs : List (String × Cell)) (h : other ≠ name) :
    getCell name (writeCell other c kvs) = getCell name kvs := by
  induction kvs with
  | nil => simp [getCell, writeCell, h]
  | cons kv kvs ih =>
    by_cases hk : kv.1 = other
    · simp [getCell, writeCell, hk, h]
    · by_cases hn : kv.1 = name
      · simp [getCell, writeCell, hk, hn, Ne.symm h]
      · simpa [getCell, writeCell, hk, hn] using ih

/-! ### Generic DataFrame operations: groupby keys, fibers, joins, sorts -/

/-- The group keys of a pandas `groupby`: the distinct key values, in
ascending `le` order (`sort=True`, the default). -/
def groupKeys {α κ : Type} [DecidableEq κ] (k : α → κ) (le : κ → κ → Bool)
    (l : List α) : List κ :=
  ((l.map k).dedup).mergeSort le

/-- The rows of one group: the fiber of a key under the key function. -/
def fiber {α κ : Type} [DecidableEq κ] (k : α → κ) (key : κ) (l : List α) : List α :=
  l.filter (fun a => decide (k a = key))

/-- Inner equi-join (`pd.merge`): every pair of rows with matching keys,
in left-major order. -/
def innerJoin {α β γ : Type} (ls : List α) (rs : List β)
    (mt : α → β → Bool) (mk : α → β → γ) : List γ :=
  ls.flatMap (fun a => ((rs.filter (mt a)).map (mk a)))

/-- Left outer equi-join (`pd.merge(..., how="left")`): unmatched left
rows survive with nulls on the right side. -/
def leftJoin {α β γ : Type} (ls : List α) (rs : List β)
    (mt : α → β → Bool) (mk : α → Option β → γ) : List γ :=
  ls.flatMap (fun a =>
    match rs.filter (mt a) with
    | [] => [mk a none]
    | bs => bs.map (fun b => mk a (some b)))

/-- Lexicographic sort-key comparison: first by the integer key `k`
ascending, ties decided by `le2` (the comparison for the remaining
sort columns). -/
def lexLe {α : Type} (k : α → Int) (le2 : α → α → Bool) (a b : α) : Bool :=
  decide (k a < k b) || (decide (k a = k b) && le2 a b)

/-- Final sort column: integer key `k` ascending. -/
def intKeyLe {α : Type} (k : α → Int) (a b : α) : Bool := decide (k a ≤ k b)

/-- Python string comparison, by code points. -/
def pyStrLe (a b : String) : Bool := charsLe a.data b.data where
  charsLe : List Char → List Char → Bool
    | [], _ => true
    | _ :: _, [] => false
    | c :: cs, d :: ds =>
      decide (c.toNat < d.toNat) || (decide (c.toNat = d.toNat) && charsLe cs ds)

theorem intKeyLe_trans {α : Type} (k : α → Int) :
    ∀ a b c, intKeyLe k a b → intKeyLe k b c → intKeyLe k a c := by
  intro a b c hab hbc
  simp only [intKeyLe, decide_eq_true_eq] at *
  omega

theorem intKeyLe_total {α : Type} (k : α → Int) :
    ∀ a b, intKeyLe k a b || intKeyLe k b a := by
  intro a b
  simp only [intKeyLe, Bool.or_eq_true, decide_eq_true_eq]
  omega

theorem lexLe_trans {α : Type} (k : α → Int) (le2 : α → α → Bool)
    (h2 : ∀ a b c, le2 a b → le2 b c → le2 a c) :
    ∀ a b c, lexLe k le2 a b → lexLe k le2 b c → lexLe k le2 a c := by
  intro a b c hab hbc
  simp only [lexLe, Bool.or_eq_true, Bool.and_eq_true, decide_eq_true_eq] at *
  rcases hab with h1 | ⟨h1, h1'⟩ <;> rcases hbc with h3 | ⟨h3, h3'⟩
  · exact Or.inl (h1.trans h3)
  · exact Or.inl (h3 ▸ h1)
  · exact Or.inl (h1 ▸ h3)
  · exact Or.inr ⟨h1.trans h3, h2 a b c h1' h3'⟩

theorem lexLe_total {α : Type} (k : α → Int) (le2 : α → α → Bool)
    (h2 : ∀ a b, le2 a b || le2 b a) :
    ∀ a b, lexLe k le2 a b || lexLe k le2 b a := by
  intro a b
  simp only [lexLe, Bool.or_eq_true, Bool.and_eq_true, decide_eq_true_eq]
  rcases lt_trichotomy (k a) (k b) with h | h | h
  · exact Or.inl (Or.inl h)
  · rcases Bool.or_eq_true _ _ |>.mp (h2 a b) with h' | h'
    · exact Or.inl (Or.inr ⟨h, h'⟩)
    · exact Or.inr (Or.inr ⟨h.symm, h'⟩)
  · exact Or.inr (Or.inl h)

theorem pyStrLe_charsLe_trans :
    ∀ a b c, pyStrLe.charsLe a b → pyStrLe.charsLe b c → pyStrLe.charsLe a c := by
  intro a
  induction a with
  | nil => intro b c _ _; cases b <;> cases c <;> simp [pyStrLe.charsLe]
  | cons x xs ih =>
    intro b c hab hbc
    cases b with
    | nil => simp [pyStrLe.charsLe] at hab
    | cons y ys =>
      cases c with
      | nil => simp [pyStrLe.charsLe] at hbc
      | cons z zs =>
        simp only [pyStrLe.charsLe, Bool.or_eq_true, Bool.and_eq_true,
          decide_eq_true_eq] at *
        rcases hab with h1 | ⟨h1, h1'⟩ <;> rcases hbc with h3 | ⟨h3, h3'⟩
        · exact Or.inl (h1.trans h3)
        · exact Or.inl (h3 ▸ h1)
        · exact Or.inl (h1 ▸ h3)
        · exact Or.inr ⟨h1.trans h3, ih ys zs h1' h3'⟩

theorem pyStrLe_charsLe_total :
    ∀ a b, pyStrLe.charsLe a b || pyStrLe.charsLe b a := by
  intro a
  induction a with
  | nil => intro b; simp [pyStrLe.charsLe]
  | cons x xs ih =>
    intro b
    cases b with
    | nil => simp [pyStrLe.charsLe]
    | cons y ys =>
      simp only [pyStrLe.charsLe, Bool.or_eq_true, Bool.and_eq_true,
        decide_eq_true_eq]
      rcases lt_trichotomy x.toNat y.toNat with h | h | h
      · exact Or.inl (Or.inl h)
      · rcases Bool.or_eq_true _ _ |>.mp (ih ys) with h' | h'
        · exact Or.inl (Or.inr ⟨h, h'⟩)
        · exact Or.inr (Or.inr ⟨h.symm, h'⟩)
      · exact Or.inr (Or.inl h)

theorem pyStrLe_trans : ∀ a b c, pyStrLe a b → pyStrLe b c → pyStrLe a c :=
  fun a b c => pyStrLe_charsLe_trans a.data b.data c.data

theorem pyStrLe_total : ∀ a b, pyStrLe a b || pyStrLe b a :=
  fun a b => pyStrLe_charsLe_total a.data b.data

theorem mem_groupKeys {α κ : Type} [DecidableEq κ] (k : α → κ) (le : κ → κ → Bool)
    (l : List α) (x : κ) : x ∈ groupKeys k le l ↔ ∃ a ∈ l, k a = x := by
  rw [groupKeys, (List.mergeSort_perm _ le).mem_iff, List.mem_dedup, List.mem_map]

theorem nodup_groupKeys {α κ : Type} [DecidableEq κ] (k : α → κ) (le : κ → κ → Bool)
    (l : List α) : (groupKeys k le l).Nodup :=
  ((List.mergeSort_perm _ le).symm.nodup (List.nodup_dedup _))

/-! ### Aggregations: max and min over a group column -/

/-- Maximum of `d :: l` by date ordinal (later date wins; on a tie the
earlier list element is kept, as in pandas `max`). -/
def maxDCons (d : Date) : List Date → Date
  | [] => d
  | x :: xs =>
    let m := maxDCons x xs
    if m.toOrdinal ≤ d.toOrdinal then d else m

/-- `agg(("date", "max"))` over a (sub)column of dates; `none` on an
empty column (pandas NaN). -/
def maxD : List Date → Option Date
  | [] => none
  | d :: ds => some (maxDCons d ds)

/-- Minimum of `d :: l` by date ordinal. -/
def minDCons (d : Date) : List Date → Date
  | [] => d
  | x :: xs =>
    let m := minDCons x xs
    if d.toOrdinal ≤ m.toOrdinal then d else m

/-- `agg(("date", "min"))` over a (sub)column of dates. -/
def minD : List Date → Option Date
  | [] => none
  | d :: ds => some (minDCons d ds)

/-- Maximum of `i :: l` over integers. -/
def maxICons (i : Int) : List Int → Int
  | [] => i
  | x :: xs =>
    let m := maxICons x xs
    if m ≤ i then i else m

/-- `.max()` over an integer column (NaN, modelled `none`, on empty). -/
def maxI : List Int → Option Int
  | [] => none
  | i :: is => some (maxICons i is)

theorem maxDCons_mem (d : Date) (l : List Date) : maxDCons d l ∈ d :: l := by
  induction l generalizing d with
  | nil => simp [maxDCons]
  | cons x xs ih =>
    simp only [maxDCons]
    split
    · simp
    · have := ih x
      rcases List.mem_cons.mp this with h | h
      · simp [h]
      · simp [List.mem_cons_of_mem, h]

theorem maxDCons_ge (d : Date) (l : List Date) :
    ∀ x ∈ d :: l, x.toOrdinal ≤ (maxDCons d l).toOrdinal := by
  induction l generalizing d with
  | nil => simp [maxDCons]
  | cons x xs ih =>
    intro y hy
    simp only [maxDCons]
    have hxs := ih x
    rcases List.mem_cons.mp hy with rfl | hy'
    · split <;> omega
    · have := hxs y hy'
      split <;> omega

theorem minDCons_mem (d : Date) (l : List Date) : minDCons d l ∈ d :: l := by
  induction l generalizing d with
  | nil => simp [minDCons]
  | cons x xs ih =>
    simp only [minDCons]
    split
    · simp
    · have := ih x
      rcases List.mem_cons.mp this with h | h
      · simp [h]
      · simp [List.mem_cons_of_mem, h]

theorem minDCons_le (d : Date) (l : List Date) :
    ∀ x ∈ d :: l, (minDCons d l).toOrdinal ≤ x.toOrdinal := by
  induction l generalizing d with
  | nil => simp [minDCons]
  | cons x xs ih =>
    intro y hy
    simp only [minDCons]
    have hxs := ih x
    rcases List.mem_cons.mp hy with rfl | hy'
    · split <;> omega
    · have := hxs y hy'
      split <;> omega

theorem maxICons_mem (i : Int) (l : List Int) : maxICons i l ∈ i :: l := by
  induction l generalizing i with
  | nil => simp [maxICons]
  | cons x xs ih =>
    simp only [maxICons]
    split
    · simp
    · have := ih x
      rcases List.mem_cons.mp this with h | h
      · simp [h]
      · simp [List.mem_cons_of_mem, h]

theorem maxICons_ge (i : Int) (l : List Int) : ∀ x ∈ i :: l, x ≤ maxICons i l := by
  induction l generalizing i with
  | nil => simp [maxICons]
  | cons x xs ih =>
    intro y hy
    simp only [maxICons]
    have hxs := ih x
    rcases List.mem_cons.mp hy with rfl | hy'
    · split <;> omega
    · have := hxs y hy'
      split <;> omega

/-! ### Partitioning a sum over groupby fibers -/

theorem sum_map_filter_split {α : Type} (q : α → Int) (p : α → Bool) (l : List α) :
    ((l.filter p).map q).sum + ((l.filter (fun a => !p a)).map q).sum
      = (l.map q).sum := by
  induction l with
  | nil => simp
  | cons x xs ih =>
    by_cases h : p x <;> simp [List.filter_cons, h] <;> omega

theorem sum_fibers {α κ : Type} [DecidableEq κ] (k : α → κ) (q : α → Int) :
    ∀ ks : List κ, ks.Nodup → ∀ l : List α, (∀ a ∈ l, k a ∈ ks) →
      (ks.map (fun g => ((fiber k g l).map q).sum)).sum = (l.map q).sum := by
  intro ks
  induction ks with
  | nil =>
    intro _ l hcov
    have : l = [] := List.eq_nil_iff_forall_not_mem.mpr (fun a ha => by simpa using hcov a ha)
    simp [this]
  | cons g ks ih =>
    intro hnd l hcov
    have hg : g ∉ ks := (List.nodup_cons.mp hnd).1
    have hnd' := (List.nodup_cons.mp hnd).2
    have hsplit := sum_map_filter_split q (fun a => decide (k a = g)) l
    have hfib : ∀ g' ∈ ks,
        fiber k g' (l.filter (fun a => !decide (k a = g))) = fiber k g' l := by
      intro g' hg'
      have hne : g' ≠ g := fun h => hg (h ▸ hg')
      simp only [fiber, List.filter_filter]
      apply List.filter_congr
      intro a _
      by_cases h : k a = g'
      · simp [h, hne]
      · simp [h]
    have hcov' : ∀ a ∈ l.filter (fun a => !decide (k a = g)), k a ∈ ks := by
      intro a ha
      rcases List.mem_filter.mp ha with ⟨hal, hne⟩
      rcases List.mem_cons.mp (hcov a hal) with h | h
      · simp [h] at hne
      · exact h
    have hmap : (ks.map (fun g' => ((fiber k g' l).map q).sum))
        = ks.map (fun g' =>
            ((fiber k g' (l.filter (fun a => !decide (k a = g)))).map q).sum) :=
      (List.map_congr_left (fun g' hg' => by rw [hfib g' hg'])).symm
    calc ((g :: ks).map (fun g' => ((fiber k g' l).map q).sum)).sum
        = ((fiber k g l).map q).sum
            + (ks.map (fun g' => ((fiber k g' l).map q).sum)).sum := by simp
      _ = ((fiber k g l).map q).sum
            + ((l.filter (fun a => !decide (k a = g))).map q).sum := by
            rw [hmap, ih hnd' _ hcov']
      _ = (l.map q).sum := hsplit

/-! ### The analytics functions of reports.py -/

/-- `TTY_START_YEAR` (reports.py line 20). -/
def TTY_START_YEAR : Nat := 1985

/-- Ascending groupby-key order on integers. -/
def intLe (a b : Int) : Bool := decide (a ≤ b)

/-- Ascending groupby-key order on game ids. -/
def natLe (a b : Nat) : Bool := decide (a ≤ b)

/-- One row of `plays.groupby("gameid").agg(plays=..., latest=...)`. -/
structure PlayTotal where
  gameid : Nat
  plays : Int
  latest : Option Date
  deriving DecidableEq, Repr

/-- The date cutoff of `hindex_data`: `plays[plays["date"] <= date]`
when a date is given. -/
def filterCutoff (plays : List Play) (date : Option Date) : List Play :=
  match date with
  | some d => plays.filter (fun p => dateLE p.date d)
  | none => plays

/-- `plays.groupby("gameid").agg(plays=("quantity", "sum"), latest=("date", "max"))`. -/
def play_totals (plays : List Play) : List PlayTotal :=
  (groupKeys (fun p => p.gameid) natLe plays).map (fun g =>
    { gameid := g
      plays := ((fiber (fun p => p.gameid) g plays).map (fun p => p.quantity)).sum
      latest := maxD ((fiber (fun p => p.gameid) g plays).map (fun p => p.date)) })

/-- One row of `pd.merge(games, collection)` restricted to the columns
the reports keep (`gameid`, `name`, `expansion`, `rating`); the join is
on `gameid`, the only column the two frames share. -/
structure GRow where
  gameid : Nat
  name : String
  expansion : Int
  rating : Option Int
  deriving DecidableEq, Repr

/-- `pd.merge(games, collection).loc[:, ["gameid", "name", "expansion", "rating"]]`. -/
def game_data (games : List Game) (collection : List CollectionItem) : List GRow :=
  innerJoin games collection (fun g c => c.gameid == g.gameid)
    (fun g c => ⟨g.gameid, g.name, g.expansion, c.rating⟩)

/-- A row of the joined `hitems` frame of `hindex_data`. -/
structure HRow where
  gameid : Nat
  plays : Int
  latest : Option Date
  name : String
  expansion : Int
  rating : Option Int
  deriving DecidableEq, Repr

/-- `hitems` after the expansion filter (`hindex_data` lines 75-76). -/
def hindexRows (plays : List Play) (games : List Game)
    (collection : List CollectionItem) (date : Option Date) : List HRow :=
  (innerJoin (play_totals (filterCutoff plays date)) (game_data games collection)
    (fun t g => g.gameid == t.gameid)
    (fun t g => ⟨t.gameid, t.plays, t.latest, g.name, g.expansion, g.rating⟩)).filter
    (fun h => h.expansion == 0)

/-- Sort key of the `latest` column (`NaT` never occurs: every group has
at least one play). -/
def latestKey : Option Date → Int
  | none => 0
  | some d => (d.toOrdinal : Int)

/-- The comparison of `sort_values(by=["sort_plays", "latest"])` with
`sort_plays = -plays`. -/
def hindexLe : HRow → HRow → Bool :=
  lexLe (fun h => -h.plays) (intKeyLe (fun h => latestKey h.latest))

/-- `hitems.sort_values(by=["sort_plays", "latest"])`. -/
def hindexSorted (plays : List Play) (games : List Game)
    (collection : List CollectionItem) (date : Option Date) : List HRow :=
  (hindexRows plays games collection date).mergeSort hindexLe

/-- An output row of `hindex_data` (`gameid` index, `name` and `plays`
columns). -/
structure NamePlays where
  gameid : Nat
  name : String
  plays : Int
  deriving DecidableEq, Repr

/-- `hindex_data(plays, games, collection, date)` (reports.py 62-86):
`h = np.arange(...)` is the position in the sorted frame; the first
component keeps `h < plays`, the second `h >= plays` and rating 10. -/
def hindex_data (plays : List Play) (games : List Game)
    (collection : List CollectionItem) (date : Option Date) :
    List NamePlays × List NamePlays :=
  let withH := (hindexSorted plays games collection date).enum
  ((withH.filter (fun p => decide ((p.1 : Int) < p.2.plays))).map
      (fun p => ⟨p.2.gameid, p.2.name, p.2.plays⟩),
   (withH.filter (fun p => decide ((p.1 : Int) ≥ p.2.plays) && (p.2.rating == some 10))).map
      (fun p => ⟨p.2.gameid, p.2.name, p.2.plays⟩))

/-- The in-window test `start <= date <= finish` shared by the window
classifiers. -/
def duringB (start finish : Date) (p : Play) : Bool :=
  dateLE start p.date && dateLE p.date finish

/-- An output row of `new_to_me_data` (`gameid` index, `name` and
`rating`). -/
structure NTMRow where
  gameid : Nat
  name : String
  rating : Option Int
  deriving DecidableEq, Repr

/-- `sort_values(by="rating", ascending=False)`: descending rating,
nulls last. -/
def ratingDescLe (a b : NTMRow) : Bool :=
  match a.rating, b.rating with
  | some x, some y => decide (y ≤ x)
  | some _, none => true
  | none, some _ => false
  | none, none => true

/-- The four in-place assignments shared by `new_to_me_data` and
`annual_report_data`: `before`/`during` are zeroed, then set to the
play's quantity where the play falls before the window or inside it. -/
def beforeDuringFrame (start finish : Date) (rows : List PRow) : List PRow :=
  setColWhere "during" (duringB start finish) (fun p => .int p.quantity)
    (setColWhere "before" (fun p => dateLT p.date start) (fun p => .int p.quantity)
      (setCol "during" (fun _ => .int 0)
        (setCol "before" (fun _ => .int 0) rows)))

/-- Sum of a numeric column over a list of rows. -/
def sumCol (name : String) (l : List PRow) : Int :=
  (l.map (fun r => cellInt (getCell name r.extra))).sum

/-- `plays.groupby("gameid").agg(plays=("during", "sum"),
previous=("before", "sum"))`: `(gameid, during-sum, before-sum)` rows. -/
def bdTotals (frame : List PRow) : List (Nat × Int × Int) :=
  (groupKeys (fun r => r.play.gameid) natLe frame).map (fun g =>
    (g, sumCol "during" (fiber (fun r => r.play.gameid) g frame),
        sumCol "before" (fiber (fun r => r.play.gameid) g frame)))

/-- `new_to_me_data(plays, games, collection, start, finish)`
(reports.py 89-110).  The second component is the plays frame as the
function leaves it: the `before`/`during` columns are assigned in
place. -/
def new_to_me_data (rows : List PRow) (games : List Game)
    (collection : List CollectionItem) (start finish : Date) :
    List NTMRow × List PRow :=
  let p4 := beforeDuringFrame start finish rows
  let new := (bdTotals p4).filter (fun t => t.2.2 == 0 && decide (0 < t.2.1))
  let merged := innerJoin new (game_data games collection) (fun t g => g.gameid == t.1)
      (fun t g => ((⟨t.1, g.name, g.rating⟩ : NTMRow), g.expansion))
  let kept := (merged.filter (fun p => p.2 == 0)).map Prod.fst
  (kept.mergeSort ratingDescLe, p4)

/-- An output row of `dust_data`: the aggregated dates and gap joined
with the game/collection columns (no expansion filter is applied). -/
structure DustRow where
  gameid : Nat
  last_before : Date
  first_during : Date
  gap : Int
  name : String
  expansion : Int
  rating : Option Int
  deriving DecidableEq, Repr

/-- The two whole-column date assignments of `dust_data`. -/
def dustFrame (start finish : Date) (rows : List PRow) : List PRow :=
  setCol "during" (fun p => if duringB start finish p then .date p.date else .na)
    (setCol "before" (fun p => if dateLT p.date start then .date p.date else .na) rows)

/-- `plays.groupby("gameid").agg(last_before=("before", "max"),
first_during=("during", "min"))`. -/
def dustGrouped (frame : List PRow) : List (Nat × Option Date × Option Date) :=
  (groupKeys (fun r => r.play.gameid) natLe frame).map (fun g =>
    (g, maxD ((fiber (fun r => r.play.gameid) g frame).filterMap
            (fun r => cellDate (getCell "before" r.extra))),
        minD ((fiber (fun r => r.play.gameid) g frame).filterMap
            (fun r => cellDate (getCell "during" r.extra)))))

/-- `.dropna()` and the strict 365-day gap filter of `dust_data`. -/
def dustKept (frame : List PRow) : List (Nat × Date × Date × Int) :=
  ((dustGrouped frame).filterMap (fun t =>
      match t.2.1, t.2.2 with
      | some lb, some fd =>
          some (t.1, lb, fd, ((fd.toOrdinal : Int) - (lb.toOrdinal : Int)))
      | _, _ => none)).filter (fun t => decide (365 < t.2.2.2))

/-- `dust_data(plays, games, collection, start, finish)`
(reports.py 113-136).  `gap` is the timedelta in whole days;
`dropna()` keeps games with both a pre-window and an in-window play.
The second component is the plays frame as the function leaves it. -/
def dust_data (rows : List PRow) (games : List Game)
    (collection : List CollectionItem) (start finish : Date) :
    List DustRow × List PRow :=
  let p2 := dustFrame start finish rows
  (innerJoin (dustKept p2) (game_data games collection) (fun t g => g.gameid == t.1)
      (fun t g => ⟨t.1, t.2.1, t.2.2.1, t.2.2.2, g.name, g.expansion, g.rating⟩), p2)

/-- An output row of `dateplays_data`. -/
structure DPRow where
  month : Nat
  day : Nat
  plays : Int
  deriving DecidableEq, Repr

/-- The `(month, day)` key read back from the assigned columns. -/
def mdKey (r : PRow) : Int × Int :=
  (cellInt (getCell "month" r.extra), cellInt (getCell "day" r.extra))

/-- Ascending order on `(month, day)` groupby keys. -/
def pairIntLe : Int × Int → Int × Int → Bool :=
  lexLe (fun p => p.1) (intKeyLe (fun p => p.2))

/-- The comparison of `sort_values(by=["plays", "month", "day"])`. -/
def dpLe : DPRow → DPRow → Bool :=
  lexLe (fun r => r.plays)
    (lexLe (fun r => (r.month : Int)) (intKeyLe (fun r => (r.day : Int))))

/-- The `month`/`day` column assignments of `dateplays_data`. -/
def dpFrame (rows : List PRow) : List PRow :=
  setCol "day" (fun p => .int (p.date.day : Int))
    (setCol "month" (fun p => .int (p.date.month : Int)) rows)

/-- `plays.groupby(["month", "day"]).agg(plays=("quantity", "sum"))`. -/
def dpTotals (frame : List PRow) : List ((Int × Int) × Int) :=
  (groupKeys mdKey pairIntLe frame).map (fun md =>
    (md, ((fiber mdKey md frame).map (fun r => r.play.quantity)).sum))

/-- The 366 days of the (leap) year 2000, built as
`datetime(2000, 1, 1) + timedelta(days=d)` for `d` in `range(366)`. -/
def dpDays : List Date := (List.range 366).map (fun d => addDays ⟨2000, 1, 1⟩ d)

/-- The dense pre-sort frame: the 366 calendar days left-joined with
the totals, `fillna(0)`. -/
def dpRows (rows : List PRow) : List DPRow :=
  dpDays.map (fun d =>
    match (dpTotals (dpFrame rows)).find? (fun t => t.1 == ((d.month : Int), (d.day : Int))) with
    | some t => (⟨d.month, d.day, t.2⟩ : DPRow)
    | none => ⟨d.month, d.day, 0⟩)

/-- `dateplays_data(plays)` (reports.py 139-157): totals per `(month,
day)`, left-joined onto the 366 days of the (leap) year 2000, missing
totals filled with 0, sorted by total then calendar position. -/
def dateplays_data (rows : List PRow) : List DPRow × List PRow :=
  ((dpRows rows).mergeSort dpLe, dpFrame rows)

/-- A row of the left merge of the year's plays with the non-expansion
games (`through_the_years_data` / `archaeologist_data`): unmatched
plays carry nulls in the game columns. -/
structure JRow where
  gameid : Nat
  date : Date
  name : Option String
  pubYear : Option Int
  rank : Option Int
  deriving DecidableEq, Repr

/-- `pd.merge(plays[plays["date"].dt.year == year], games[games["expansion"] == 0],
on="gameid", how="left")`. -/
def year_play_rows (plays : List Play) (games : List Game) (year : Nat) : List JRow :=
  leftJoin (plays.filter (fun p => p.date.year == year))
    (games.filter (fun g => g.expansion == 0))
    (fun p g => g.gameid == p.gameid)
    (fun p g? => ⟨p.gameid, p.date,
      g?.map (fun g => g.name), g?.bind (fun g => g.year), g?.bind (fun g => g.rank)⟩)

/-- An output row of `through_the_years_data`: `name` is `fillna("")`-d,
`date`/`gameid` stay null for years with no qualifying play. -/
structure TTYRow where
  year : Int
  date : Option Date
  gameid : Option Nat
  name : String
  deriving DecidableEq, Repr

/-- A row of the intermediate `(year, date)` aggregation. -/
structure TTYAgg where
  pubYear : Int
  date : Date
  gameid : Nat
  name : Option String
  deriving DecidableEq, Repr

/-- The `(publication year, date)` groupby key. -/
def ydKey (p : Int × JRow) : Int × Date := (p.1, p.2.date)

/-- Ascending order on `(year, date)` groupby keys. -/
def ydLe : Int × Date → Int × Date → Bool :=
  lexLe (fun k => k.1) (intKeyLe (fun k => (k.2.toOrdinal : Int)))

/-- The dense year range `range(TTY_START_YEAR, year + 1)`. -/
def ttyYears (year : Nat) : List Int :=
  (List.range (year + 1 - TTY_START_YEAR)).map (fun i => ((TTY_START_YEAR + i : Nat) : Int))

/-- The `(publication year, play)` pairs the `(year, date)` groupby
keeps (null publication years dropped). -/
def ttyKeyed (plays : List Play) (games : List Game) (year : Nat) : List (Int × JRow) :=
  (year_play_rows plays games year).filterMap (fun t => t.pubYear.map (fun y => (y, t)))

/-- `groupby(["year", "date"]).agg(gameid=("gameid", "first"),
name=("name", "first")).reset_index()`. -/
def ttyGrouped (plays : List Play) (games : List Game) (year : Nat) : List TTYAgg :=
  (groupKeys ydKey ydLe (ttyKeyed plays games year)).filterMap (fun k =>
    ((fiber ydKey k (ttyKeyed plays games year)).head?).map (fun p =>
      (⟨k.1, k.2, p.2.gameid, p.2.name⟩ : TTYAgg)))

/-- `.sort_values(by=["date"])`. -/
def ttySorted (plays : List Play) (games : List Game) (year : Nat) : List TTYAgg :=
  (ttyGrouped plays games year).mergeSort (intKeyLe (fun r => (r.date.toOrdinal : Int)))

/-- `play_data.groupby("year").agg(... "first")`: the first row of each
publication year in date order. -/
def ttyFirstBY (plays : List Play) (games : List Game) (year : Nat) : List TTYAgg :=
  (groupKeys (fun r => r.pubYear) intLe (ttySorted plays games year)).filterMap (fun y =>
    (fiber (fun r => r.pubYear) y (ttySorted plays games year)).head?)

/-- `through_the_years_data(plays, games, year)` (reports.py 160-184).
Rows with a null publication year (expansion or unknown game) are
dropped by the groupby; `first` picks the first row of a group in the
current frame order. -/
def through_the_years_data (plays : List Play) (games : List Game) (year : Nat) :
    List TTYRow :=
  (ttyYears year).map (fun y =>
      match (ttyFirstBY plays games year).find? (fun r => r.pubYear == y) with
      | some r => ⟨y, some r.date, some r.gameid, r.name.getD ""⟩
      | none => ⟨y, none, none, ""⟩)

/-- A row of the per-rank aggregation of `archaeologist_data`. -/
structure ARankRow where
  rank : Int
  date : Date
  gameid : Nat
  name : Option String
  deriving DecidableEq, Repr

/-- An output row of `archaeologist_data`: `bin` is the category label
`f"{b-999}-{b}"` as its two bounds, `rank` is `fillna(-1)`-d, `name`
`fillna("")`-d. -/
structure ArchRow where
  bin : Int × Int
  rank : Int
  date : Option Date
  gameid : Option Nat
  name : String
  deriving DecidableEq, Repr

/-- `sort_values(by=["rank"], ascending=False)`. -/
def rankDescLe : ARankRow → ARankRow → Bool := intKeyLe (fun r => -r.rank)

/-- The `(rank, play)` pairs the rank groupby keeps (null ranks
dropped: expansions, unmatched and unranked games). -/
def archKeyed (plays : List Play) (games : List Game) (year : Nat) : List (Int × JRow) :=
  (year_play_rows plays games year).filterMap (fun t => t.rank.map (fun rk => (rk, t)))

/-- `groupby(["rank"]).agg(...("date", "first"), ...).reset_index()`. -/
def archGrouped (plays : List Play) (games : List Game) (year : Nat) : List ARankRow :=
  (groupKeys (fun p => p.1) intLe (archKeyed plays games year)).filterMap (fun rk =>
    ((fiber (fun p : Int × JRow => p.1) rk (archKeyed plays games year)).head?).map (fun p =>
      (⟨rk, p.2.date, p.2.gameid, p.2.name⟩ : ARankRow)))

/-- `.sort_values(by=["rank"], ascending=False)`. -/
def archSorted (plays : List Play) (games : List Game) (year : Nat) : List ARankRow :=
  (archGrouped plays games year).mergeSort rankDescLe

/-- `archaeologist_data(plays, games, year)` (reports.py 187-219).
`none` models the `ValueError` that `int(play_data["rank"].max())`
raises when no play of the year joins a ranked non-expansion game.
`pd.cut(ranks, bins)` places rank `r` in bucket `(b - 1000, b]`; ranks
of 1000 or less fall outside every bucket and are dropped, and the
`groupby` over the resulting categorical emits every bucket, even
empty ones. -/
def archaeologist_data (plays : List Play) (games : List Game) (year : Nat) :
    Option (List ArchRow) :=
  let sorted := archSorted plays games year
  match maxI (sorted.map (fun r => r.rank)) with
  | none => none
  | some mx =>
    let limit := max 10000 ((Int.fdiv mx 1000 + 1) * 1000)
    let ubs := (List.range ((limit - 1000).toNat / 1000)).map
        (fun i => ((2000 : Int) + 1000 * (i : Int)))
    some (ubs.map (fun b =>
      match (sorted.filter (fun r =>
          decide (b - 1000 < r.rank) && decide (r.rank ≤ b))).head? with
      | some r => ⟨(b - 999, b), r.rank, some r.date, some r.gameid, r.name.getD ""⟩
      | none => ⟨(b - 999, b), -1, none, none, ""⟩))

/-- A row of the merged per-game totals of `annual_report_data`. -/
structure AGRow where
  gameid : Nat
  plays : Int
  previous : Int
  name : String
  expansion : Int
  year : Option Int
  deriving DecidableEq, Repr

/-- The comparison of `sort_values(by=["sort_plays", "name"])` with
`sort_plays = -plays`. -/
def annualLe : AGRow → AGRow → Bool :=
  lexLe (fun r => -r.plays) (fun a b => pyStrLe a.name b.name)

/-- The result record of `annual_report_data`: the stats dict in
insertion order, the plays-by-publication-year table and the per-game
table. -/
structure AnnualData where
  stats : List (String × Int)
  years : List (Int × Int)
  games : List AGRow
  deriving DecidableEq, Repr

/-- The sorted per-game table `totals` of `annual_report_data`:
`before`/`during` aggregated, inner-merged with `games`, restricted to
played non-expansions, sorted by descending plays with name
tie-break. -/
def annualTotals (rows : List PRow) (games : List Game) (year : Nat) : List AGRow :=
  let p4 := beforeDuringFrame ⟨year, 1, 1⟩ ⟨year, 12, 31⟩ rows
  let totals1 := innerJoin (bdTotals p4) games (fun t g => g.gameid == t.1)
      (fun t g => (⟨g.gameid, t.2.1, t.2.2, g.name, g.expansion, g.year⟩ : AGRow))
  (totals1.filter (fun r => r.expansion == 0 && decide (0 < r.plays))).mergeSort annualLe

/-- `totals.groupby("year").agg(total_plays=("plays", "sum"))` followed
by the `total_plays > 0` filter (null publication years dropped by the
groupby). -/
def annualYears (rows : List PRow) (games : List Game) (year : Nat) : List (Int × Int) :=
  let yearsKeyed := (annualTotals rows games year).filterMap
      (fun r => r.year.map (fun y => (y, r)))
  ((groupKeys (fun p => p.1) intLe yearsKeyed).map (fun y =>
      (y, ((fiber (fun p : Int × AGRow => p.1) y yearsKeyed).map
            (fun p => p.2.plays)).sum))).filter (fun p => decide (0 < p.2))

/-- `annual_report_data(plays, games, collection, year)`
(reports.py 244-286).  The second component is the plays frame as the
function leaves it (`before`/`during` assigned in place);
`hindex_relevant` is sliced before those assignments. -/
def annual_report_data (rows : List PRow) (games : List Game)
    (collection : List CollectionItem) (year : Nat) : AnnualData × List PRow :=
  let start : Date := ⟨year, 1, 1⟩
  let finish : Date := ⟨year, 12, 31⟩
  let hindex_relevant := (rows.map (fun r => r.play)).filter (duringB start finish)
  let totalsS := annualTotals rows games year
  let new := totalsS.filter (fun r => r.previous == 0 && decide (0 < r.plays))
  let stats := [("Total Plays", (totalsS.map (fun r => r.plays)).sum),
                ("New to Me", ((new.filter (fun r => r.expansion == 0)).length : Int)),
                ("Nickels", ((totalsS.filter (fun r => decide (5 ≤ r.plays))).length : Int)),
                ("Dimes", ((totalsS.filter (fun r => decide (10 ≤ r.plays))).length : Int)),
                ("H-Index",
                  ((hindex_data hindex_relevant games collection none).1.length : Int))]
  (⟨stats, annualYears rows games year, totalsS⟩, beforeDuringFrame start finish rows)

/-! ### Join membership lemmas -/

theorem mem_innerJoin {α β γ : Type} (ls : List α) (rs : List β)
    (mt : α → β → Bool) (mk : α → β → γ) (c : γ) :
    c ∈ innerJoin ls rs mt mk ↔ ∃ a ∈ ls, ∃ b ∈ rs, mt a b = true ∧ c = mk a b := by
  simp only [innerJoin, List.mem_flatMap, List.mem_map, List.mem_filter]
  constructor
  · rintro ⟨a, ha, b, ⟨hb, hm⟩, rfl⟩
    exact ⟨a, ha, b, hb, hm, rfl⟩
  · rintro ⟨a, ha, b, hb, hm, rfl⟩
    exact ⟨a, ha, b, ⟨hb, hm⟩, rfl⟩

theorem mem_leftJoin {α β γ : Type} (ls : List α) (rs : List β)
    (mt : α → β → Bool) (mk : α → Option β → γ) (c : γ) :
    c ∈ leftJoin ls rs mt mk ↔
      ∃ a ∈ ls, (rs.filter (mt a) = [] ∧ c = mk a none)
        ∨ ∃ b ∈ rs, mt a b = true ∧ c = mk a (some b) := by
  simp only [leftJoin, List.mem_flatMap]
  constructor
  · rintro ⟨a, ha, hc⟩
    refine ⟨a, ha, ?_⟩
    cases h : rs.filter (mt a) with
    | nil =>
      rw [h] at hc
      simp only [List.mem_singleton] at hc
      exact Or.inl ⟨rfl, hc⟩
    | cons b bs =>
      rw [h] at hc
      rcases List.mem_map.mp hc with ⟨b', hb', rfl⟩
      have hb'' : b' ∈ rs.filter (mt a) := h ▸ hb'
      rcases List.mem_filter.mp hb'' with ⟨hbr, hbm⟩
      exact Or.inr ⟨b', hbr, hbm, rfl⟩
  · rintro ⟨a, ha, ⟨hnil, rfl⟩ | ⟨b, hb, hm, rfl⟩⟩
    · exact ⟨a, ha, by rw [hnil]; simp⟩
    · refine ⟨a, ha, ?_⟩
      have hbf : b ∈ rs.filter (mt a) := List.mem_filter.mpr ⟨hb, hm⟩
      cases h : rs.filter (mt a) with
      | nil => rw [h] at hbf; cases hbf
      | cons x xs => exact List.mem_map.mpr ⟨b, h ▸ hbf, rfl⟩

/-! ### Claim theorems -/

/-- C1: for every input to `hindex_data`, the joined, expansion-free
entries are sorted by descending total play quantity with ties broken
by ascending latest-play date; each entry gets its 0-based position
`h`, the entries with `h < plays` are returned as the index and the
entries with `h >= plays` and rating 10 as the near misses. -/
theorem C1_hindex_sort_and_split (plays : List Play) (games : List Game)
    (collection : List CollectionItem) (date : Option Date) :
    (hindexSorted plays games collection date).Perm
        (hindexRows plays games collection date)
    ∧ (hindexSorted plays games collection date).Pairwise
        (fun a b => b.plays < a.plays
          ∨ (a.plays = b.plays ∧ latestKey a.latest ≤ latestKey b.latest))
    ∧ (hindex_data plays games collection date).1
        = ((hindexSorted plays games collection date).enum.filter
            (fun p => decide ((p.1 : Int) < p.2.plays))).map
            (fun p => ⟨p.2.gameid, p.2.name, p.2.plays⟩)
    ∧ (hindex_data plays games collection date).2
        = ((hindexSorted plays games collection date).enum.filter
            (fun p => decide ((p.1 : Int) ≥ p.2.plays) && (p.2.rating == some 10))).map
            (fun p => ⟨p.2.gameid, p.2.name, p.2.plays⟩) := by
  refine ⟨List.mergeSort_perm _ _, ?_, rfl, rfl⟩
  have hs : (hindexSorted plays games collection date).Pairwise
      (fun a b => hindexLe a b = true) :=
    List.sorted_mergeSort
      (lexLe_trans _ _ (intKeyLe_trans _)) (lexLe_total _ _ (intKeyLe_total _)) _
  refine hs.imp ?_
  intro a b hab
  simp only [hindexLe, lexLe, intKeyLe, Bool.or_eq_true, Bool.and_eq_true,
    decide_eq_true_eq] at hab
  rcases hab with h | ⟨h, h'⟩
  · exact Or.inl (by omega)
  · exact Or.inr ⟨by omega, h'⟩

/-- C2: the play aggregation groups the (optionally cutoff-filtered)
plays by game: one entry per played game (never a zero entry), whose
total is the sum of that game's quantities and whose `latest` is the
maximum qualifying date; total quantity is conserved. -/
theorem C2_aggregation_conserves (plays : List Play) (cutoff : Option Date) :
    ((play_totals (filterCutoff plays cutoff)).map (fun t => t.gameid)).Nodup
    ∧ (∀ g, (∃ t ∈ play_totals (filterCutoff plays cutoff), t.gameid = g)
        ↔ ∃ p ∈ filterCutoff plays cutoff, p.gameid = g)
    ∧ (∀ t ∈ play_totals (filterCutoff plays cutoff),
        t.plays = (((filterCutoff plays cutoff).filter
            (fun p => p.gameid == t.gameid)).map (fun p => p.quantity)).sum
        ∧ ∃ d, t.latest = some d
            ∧ (∃ p ∈ filterCutoff plays cutoff, p.gameid = t.gameid ∧ p.date = d)
            ∧ ∀ p ∈ filterCutoff plays cutoff, p.gameid = t.gameid →
                p.date.toOrdinal ≤ d.toOrdinal)
    ∧ ((play_totals (filterCutoff plays cutoff)).map (fun t => t.plays)).sum
        = ((filterCutoff plays cutoff).map (fun p => p.quantity)).sum := by
  set fp := filterCutoff plays cutoff with hfp
  have hmapid : (play_totals fp).map (fun t => t.gameid)
      = groupKeys (fun p => p.gameid) natLe fp := by
    rw [play_totals, List.map_map]
    exact (List.map_congr_left (fun g _ => rfl)).trans (List.map_id' _)
  refine ⟨?_, ?_, ?_, ?_⟩
  · rw [hmapid]; exact nodup_groupKeys _ _ _
  · intro g
    constructor
    · rintro ⟨t, ht, rfl⟩
      have : t.gameid ∈ (play_totals fp).map (fun t => t.gameid) :=
        List.mem_map.mpr ⟨t, ht, rfl⟩
      rw [hmapid, mem_groupKeys] at this
      exact this
    · intro hp
      have hg : g ∈ groupKeys (fun p => p.gameid) natLe fp :=
        (mem_groupKeys _ _ _ _).mpr hp
      exact ⟨_, List.mem_map.mpr ⟨g, hg, rfl⟩, rfl⟩
  · intro t ht
    rcases List.mem_map.mp ht with ⟨g, hg, rfl⟩
    constructor
    · rfl
    · rcases (mem_groupKeys _ _ _ _).mp hg with ⟨p, hp, hpg⟩
      have hpf : p ∈ fiber (fun p => p.gameid) g fp :=
        List.mem_filter.mpr ⟨hp, by simp [hpg]⟩
      have hne : (fiber (fun p => p.gameid) g fp).map (fun p => p.date) ≠ [] := by
        intro h
        rw [List.map_eq_nil_iff] at h
        rw [h] at hpf
        cases hpf
      cases hdl : (fiber (fun p => p.gameid) g fp).map (fun p => p.date) with
      | nil => exact absurd hdl hne
      | cons d ds =>
        refine ⟨maxDCons d ds, by simp [maxD, hdl], ?_, ?_⟩
        · have hmem : maxDCons d ds ∈ d :: ds := maxDCons_mem d ds
          rw [← hdl] at hmem
          rcases List.mem_map.mp hmem with ⟨q, hq, hqd⟩
          rcases List.mem_filter.mp hq with ⟨hql, hqg⟩
          simp only [decide_eq_true_eq] at hqg
          exact ⟨q, hql, hqg, hqd⟩
        · intro q hql hqg
          have hq : q ∈ fiber (fun p => p.gameid) g fp :=
            List.mem_filter.mpr ⟨hql, by simp [hqg]⟩
          have : q.date ∈ d :: ds := hdl ▸ List.mem_map.mpr ⟨q, hq, rfl⟩
          exact maxDCons_ge d ds _ this
  · have : (play_totals fp).map (fun t => t.plays)
        = (groupKeys (fun p => p.gameid) natLe fp).map (fun g =>
            ((fiber (fun p => p.gameid) g fp).map (fun p => p.quantity)).sum) := by
      simp [play_totals, List.map_map]
    rw [this]
    exact sum_fibers _ _ _ (nodup_groupKeys _ _ _) _
      (fun p hp => (mem_groupKeys _ _ _ _).mpr ⟨p, hp, rfl⟩)

theorem snd_mem_of_mem_enum {α : Type} {l : List α} {p : Nat × α}
    (h : p ∈ l.enum) : p.2 ∈ l := by
  rcases p with ⟨i, x⟩
  have h' : (i, x) ∈ List.enumFrom 0 l := by simpa [List.enum] using h
  rcases List.mem_enumFrom h' with ⟨-, hlt, hx⟩
  rw [hx]
  exact List.getElem_mem _

theorem mem_game_data {games : List Game} {collection : List CollectionItem}
    {gr : GRow} (h : gr ∈ game_data games collection) :
    ∃ g ∈ games, ∃ c ∈ collection, c.gameid = g.gameid
      ∧ gr = ⟨g.gameid, g.name, g.expansion, c.rating⟩ := by
  rcases (mem_innerJoin _ _ _ _ _).mp h with ⟨g, hg, c, hc, hm, rfl⟩
  exact ⟨g, hg, c, hc, by simpa using hm, rfl⟩

theorem hindexRows_have_collection {plays : List Play} {games : List Game}
    {collection : List CollectionItem} {date : Option Date} {h : HRow}
    (hh : h ∈ hindexRows plays games collection date) :
    ∃ c ∈ collection, c.gameid = h.gameid := by
  have hj := List.mem_filter.mp hh |>.1
  rcases (mem_innerJoin _ _ _ _ _).mp hj with ⟨t, ht, g, hg, hm, rfl⟩
  rcases mem_game_data hg with ⟨gm, hgm, c, hc, hcg, rfl⟩
  simp only [beq_iff_eq] at hm
  exact ⟨c, hc, by simp [hcg, hm]⟩

/-- C3: a game reaches the h-index, new-to-me and out-of-the-dust
outputs only through the `Games ⋈ CollectionItems` join, so only with a
collection row for its game id. -/
theorem C3_collection_join_required (plays : List Play) (rows : List PRow)
    (games : List Game) (collection : List CollectionItem)
    (date : Option Date) (start finish : Date) :
    (∀ r ∈ (hindex_data plays games collection date).1,
        ∃ c ∈ collection, c.gameid = r.gameid)
    ∧ (∀ r ∈ (hindex_data plays games collection date).2,
        ∃ c ∈ collection, c.gameid = r.gameid)
    ∧ (∀ r ∈ (new_to_me_data rows games collection start finish).1,
        ∃ c ∈ collection, c.gameid = r.gameid)
    ∧ (∀ r ∈ (dust_data rows games collection start finish).1,
        ∃ c ∈ collection, c.gameid = r.gameid) := by
  refine ⟨?_, ?_, ?_, ?_⟩
  · intro r hr
    rcases List.mem_map.mp hr with ⟨p, hp, rfl⟩
    have hmem : p.2 ∈ hindexSorted plays games collection date :=
      snd_mem_of_mem_enum (List.mem_filter.mp hp).1
    have := (List.mergeSort_perm (hindexRows plays games collection date) hindexLe).mem_iff.mp hmem
    exact hindexRows_have_collection this
  · intro r hr
    rcases List.mem_map.mp hr with ⟨p, hp, rfl⟩
    have hmem : p.2 ∈ hindexSorted plays games collection date :=
      snd_mem_of_mem_enum (List.mem_filter.mp hp).1
    have := (List.mergeSort_perm (hindexRows plays games collection date) hindexLe).mem_iff.mp hmem
    exact hindexRows_have_collection this
  · intro r hr
    have hr' := (List.mergeSort_perm _ ratingDescLe).mem_iff.mp hr
    rcases List.mem_map.mp hr' with ⟨pr, hpr, rfl⟩
    have hj := (List.mem_filter.mp hpr).1
    rcases (mem_innerJoin _ _ _ _ _).mp hj with ⟨t, ht, g, hg, hm, rfl⟩
    rcases mem_game_data hg with ⟨gm, hgm, c, hc, hcg, rfl⟩
    simp only [beq_iff_eq] at hm
    exact ⟨c, hc, by simp [hcg, hm]⟩
  · intro r hr
    rcases (mem_innerJoin _ _ _ _ _).mp hr with ⟨t, ht, g, hg, hm, rfl⟩
    rcases mem_game_data hg with ⟨gm, hgm, c, hc, hcg, rfl⟩
    simp only [beq_iff_eq] at hm
    exact ⟨c, hc, by simp [hcg, hm]⟩

set_option maxRecDepth 8000 in
unseal List.merge List.mergeSort in
/-- C3 counterexample: `through_the_years_data` joins plays with the
games table only; with an empty collection (no CollectionItem row at
all) a played game still appears in the report. -/
theorem C3_counterexample_tty_ignores_collection :
    ((through_the_years_data [⟨1, 42, ⟨2020, 5, 5⟩, 1⟩]
        [⟨42, "Foo", 0, none, some 1995⟩] 2020).filter
        (fun r => r.gameid != none)).map (fun r => (r.year, r.gameid, r.name))
      = [((1995 : Int), some 42, "Foo")] := by decide

theorem mem_of_head? {α : Type} {l : List α} {a : α} (h : l.head? = some a) : a ∈ l := by
  rcases List.head?_eq_some_iff.mp h with ⟨ys, rfl⟩
  exact List.mem_cons_self _ _

theorem year_play_rows_fields {plays : List Play} {games : List Game} {year : Nat}
    {t : JRow} (ht : t ∈ year_play_rows plays games year) :
    (t.name = none ∧ t.pubYear = none ∧ t.rank = none)
    ∨ ∃ g ∈ games, g.gameid = t.gameid ∧ g.expansion = 0
        ∧ t.name = some g.name ∧ t.pubYear = g.year ∧ t.rank = g.rank := by
  rcases (mem_leftJoin _ _ _ _ _).mp ht with ⟨p, hp, ⟨hnil, rfl⟩ | ⟨g, hg, hm, rfl⟩⟩
  · exact Or.inl ⟨rfl, rfl, rfl⟩
  · rcases List.mem_filter.mp hg with ⟨hgm, hex⟩
    simp only [beq_iff_eq] at hm hex
    exact Or.inr ⟨g, hgm, hm, hex, rfl, rfl, rfl⟩

theorem year_play_rows_origin {plays : List Play} {games : List Game} {year : Nat}
    {t : JRow} (ht : t ∈ year_play_rows plays games year) :
    ∃ p ∈ plays, p.date.year = year ∧ t.gameid = p.gameid ∧ t.date = p.date := by
  rcases (mem_leftJoin _ _ _ _ _).mp ht with ⟨p, hp, ⟨hnil, rfl⟩ | ⟨g, hg, hm, rfl⟩⟩
  · rcases List.mem_filter.mp hp with ⟨hpl, hpy⟩
    simp only [beq_iff_eq] at hpy
    exact ⟨p, hpl, hpy, rfl, rfl⟩
  · rcases List.mem_filter.mp hp with ⟨hpl, hpy⟩
    simp only [beq_iff_eq] at hpy
    exact ⟨p, hpl, hpy, rfl, rfl⟩

theorem year_play_rows_intro {plays : List Play} {games : List Game} {year : Nat}
    {p : Play} (hp : p ∈ plays) (hy : p.date.year = year)
    {g : Game} (hg : g ∈ games) (hex : g.expansion = 0) (hid : g.gameid = p.gameid) :
    (⟨p.gameid, p.date, some g.name, g.year, g.rank⟩ : JRow)
      ∈ year_play_rows plays games year := by
  refine (mem_leftJoin _ _ _ _ _).mpr
    ⟨p, List.mem_filter.mpr ⟨hp, by simp [hy]⟩, Or.inr ⟨g, ?_, by simp [hid], rfl⟩⟩
  exact List.mem_filter.mpr ⟨hg, by simp [hex]⟩

theorem ttyGrouped_origin {plays : List Play} {games : List Game} {year : Nat}
    {a : TTYAgg} (ha : a ∈ ttyGrouped plays games year) :
    ∃ t ∈ year_play_rows plays games year, t.pubYear = some a.pubYear
      ∧ t.date = a.date ∧ t.gameid = a.gameid ∧ t.name = a.name := by
  rcases List.mem_filterMap.mp ha with ⟨k, hk, hhead⟩
  rcases Option.map_eq_some'.mp hhead with ⟨p, hp, ha'⟩
  subst ha'
  have hpmem : p ∈ fiber ydKey k (ttyKeyed plays games year) := mem_of_head? hp
  rcases List.mem_filter.mp hpmem with ⟨hpk, hpkey⟩
  simp only [decide_eq_true_eq] at hpkey
  subst hpkey
  rcases List.mem_filterMap.mp hpk with ⟨t, htm, hty⟩
  rcases Option.map_eq_some'.mp hty with ⟨py, hpy, hpt⟩
  subst hpt
  exact ⟨t, htm, hpy, rfl, rfl, rfl⟩

theorem archGrouped_origin {plays : List Play} {games : List Game} {year : Nat}
    {a : ARankRow} (ha : a ∈ archGrouped plays games year) :
    ∃ t ∈ year_play_rows plays games year, t.rank = some a.rank
      ∧ t.date = a.date ∧ t.gameid = a.gameid ∧ t.name = a.name := by
  rcases List.mem_filterMap.mp ha with ⟨rk, hk, hhead⟩
  rcases Option.map_eq_some'.mp hhead with ⟨p, hp, ha'⟩
  subst ha'
  have hpmem : p ∈ fiber (fun p : Int × JRow => p.1) rk (archKeyed plays games year) :=
    mem_of_head? hp
  rcases List.mem_filter.mp hpmem with ⟨hpk, hpkey⟩
  simp only [decide_eq_true_eq] at hpkey
  subst hpkey
  rcases List.mem_filterMap.mp hpk with ⟨t, htm, hty⟩
  rcases Option.map_eq_some'.mp hty with ⟨rk', hrk, hpt⟩
  subst hpt
  exact ⟨t, htm, hrk, rfl, rfl, rfl⟩

/-- C4 (amended): new-to-me, through-the-years and archaeologist never
report an expansion: every reported game id joins a non-expansion
games row.  (`dust_data` applies no such filter, see the
counterexample; the date histogram reports no games at all.) -/
theorem C4_expansions_excluded (rows : List PRow) (plays : List Play)
    (games : List Game) (collection : List CollectionItem)
    (start finish : Date) (year : Nat) :
    (∀ r ∈ (new_to_me_data rows games collection start finish).1,
        ∃ g ∈ games, g.gameid = r.gameid ∧ g.expansion = 0)
    ∧ (∀ r ∈ through_the_years_data plays games year, ∀ gid, r.gameid = some gid →
        ∃ g ∈ games, g.gameid = gid ∧ g.expansion = 0)
    ∧ (∀ out, archaeologist_data plays games year = some out →
        ∀ r ∈ out, ∀ gid, r.gameid = some gid →
          ∃ g ∈ games, g.gameid = gid ∧ g.expansion = 0) := by
  refine ⟨?_, ?_, ?_⟩
  · intro r hr
    have hr' := (List.mergeSort_perm _ ratingDescLe).mem_iff.mp hr
    rcases List.mem_map.mp hr' with ⟨pr, hpr, rfl⟩
    rcases List.mem_filter.mp hpr with ⟨hprm, hpr0⟩
    rcases (mem_innerJoin _ _ _ _ _).mp hprm with ⟨t, ht, g, hg, hm, rfl⟩
    rcases mem_game_data hg with ⟨gm, hgm, c, hc, hcg, rfl⟩
    simp only [beq_iff_eq] at hm hpr0
    exact ⟨gm, hgm, by simp [hm], hpr0⟩
  · intro r hr gid hgid
    rcases List.mem_map.mp hr with ⟨y, hy, rfl⟩
    cases hfind : (ttyFirstBY plays games year).find? (fun r => r.pubYear == y) with
    | none => simp [hfind] at hgid
    | some a =>
      simp only [hfind, TTYRow.mk.injEq, Option.some.injEq] at hgid
      have ham : a ∈ ttyFirstBY plays games year := List.mem_of_find?_eq_some hfind
      rcases List.mem_filterMap.mp ham with ⟨y', hy', hhead⟩
      have has : a ∈ ttySorted plays games year :=
        (List.mem_filter.mp (mem_of_head? hhead)).1
      have hag : a ∈ ttyGrouped plays games year :=
        (List.mergeSort_perm _ _).mem_iff.mp has
      rcases ttyGrouped_origin hag with ⟨t, htm, hty, -, htg, -⟩
      rcases year_play_rows_fields htm with ⟨-, h0, -⟩ | ⟨g, hgm, hgid', hex, -⟩
      · rw [h0] at hty; cases hty
      · exact ⟨g, hgm, by rw [hgid', htg, hgid], hex⟩
  · intro out hout r hr gid hgid
    cases hmx : maxI ((archSorted plays games year).map (fun r => r.rank)) with
    | none => simp [archaeologist_data, hmx] at hout
    | some mx =>
      simp only [archaeologist_data, hmx, Option.some.injEq] at hout
      rcases List.mem_map.mp (hout ▸ hr) with ⟨b, hb, hrb⟩
      cases hhead : ((archSorted plays games year).filter (fun r =>
          decide (b - 1000 < r.rank) && decide (r.rank ≤ b))).head? with
      | none => rw [hhead] at hrb; subst hrb; cases hgid
      | some a =>
        rw [hhead] at hrb
        subst hrb
        simp only [Option.some.injEq] at hgid
        have has : a ∈ archSorted plays games year :=
          (List.mem_filter.mp (mem_of_head? hhead)).1
        have hag : a ∈ archGrouped plays games year :=
          (List.mergeSort_perm _ _).mem_iff.mp has
        rcases archGrouped_origin hag with ⟨t, htm, htr, -, htg, -⟩
        rcases year_play_rows_fields htm with ⟨-, -, h0⟩ | ⟨g, hgm, hgid', hex, -⟩
        · rw [h0] at htr; cases htr
        · exact ⟨g, hgm, by rw [hgid', htg, hgid], hex⟩

set_option maxRecDepth 8000 in
unseal List.merge List.mergeSort in
/-- C4 counterexample: `dust_data` never filters on `expansion`; an
expansion game with a 731-day gap is reported. -/
theorem C4_counterexample_dust_reports_expansion :
    ((dust_data [⟨⟨1, 7, ⟨2019, 1, 1⟩, 1⟩, []⟩, ⟨⟨2, 7, ⟨2021, 1, 1⟩, 1⟩, []⟩]
        [⟨7, "Exp", 1, none, none⟩] [⟨"u", 7, 1, some 5⟩]
        ⟨2020, 12, 1⟩ ⟨2021, 12, 31⟩).1).map (fun r => (r.gameid, r.expansion, r.gap))
      = [(7, 1, 731)] := by decide

theorem maxI_none_iff {l : List Int} : maxI l = none ↔ l = [] := by
  cases l <;> simp [maxI]

theorem maxI_ge_all {l : List Int} {i : Int} (h : maxI l = some i) : ∀ x ∈ l, x ≤ i := by
  cases l with
  | nil => simp [maxI] at h
  | cons x xs =>
    simp only [maxI, Option.some.injEq] at h
    exact h ▸ maxICons_ge x xs

theorem maxI_mem_list {l : List Int} {i : Int} (h : maxI l = some i) : i ∈ l := by
  cases l with
  | nil => simp [maxI] at h
  | cons x xs =>
    simp only [maxI, Option.some.injEq] at h
    exact h ▸ maxICons_mem x xs

theorem head_first_of_pairwise {α : Type} {R : α → α → Prop} {l : List α} {a : α}
    (hp : l.Pairwise R) (hh : l.head? = some a) : ∀ b ∈ l, b = a ∨ R a b := by
  rcases List.head?_eq_some_iff.mp hh with ⟨ys, rfl⟩
  intro b hb
  rcases List.mem_cons.mp hb with rfl | hb'
  · exact Or.inl rfl
  · exact Or.inr (List.rel_of_pairwise_cons hp hb')

/-- C5 (amended): when some play of the year joins a ranked
non-expansion game, `archaeologist_data` emits one row per inclusive
width-1000 bucket starting at 1001 (ranks of 1000 or less are never
binned), in ascending order up to 10000 or the maximum observed rank
rounded up to the next 1000, whichever is larger; an empty bucket gets
a blank row, and a non-empty bucket reports the entry with the largest
rank in the bucket.  With no ranked play the function raises
(modelled `none`). -/
theorem C5_archaeologist_buckets (plays : List Play) (games : List Game) (year : Nat) :
    (archaeologist_data plays games year = none ↔ archGrouped plays games year = [])
    ∧ ∀ out, archaeologist_data plays games year = some out →
      ∃ mx, maxI ((archSorted plays games year).map (fun r => r.rank)) = some mx
        ∧ (∀ a ∈ archGrouped plays games year, a.rank ≤ mx)
        ∧ (∃ a ∈ archGrouped plays games year, a.rank = mx)
        ∧ out.map (fun r => r.bin)
            = (List.range ((max 10000 ((Int.fdiv mx 1000 + 1) * 1000) - 1000).toNat / 1000)).map
                (fun i => ((1001 : Int) + 1000 * (i : Int), (2000 : Int) + 1000 * (i : Int)))
        ∧ ∀ r ∈ out, r.bin.1 = r.bin.2 - 999
            ∧ ((r.rank = -1 ∧ r.date = none ∧ r.gameid = none ∧ r.name = ""
                ∧ ¬ ∃ a ∈ archGrouped plays games year,
                    r.bin.1 ≤ a.rank ∧ a.rank ≤ r.bin.2)
              ∨ (∃ a ∈ archGrouped plays games year,
                  (r.bin.1 ≤ a.rank ∧ a.rank ≤ r.bin.2)
                  ∧ r.rank = a.rank ∧ r.date = some a.date ∧ r.gameid = some a.gameid
                  ∧ r.name = a.name.getD ""
                  ∧ ∀ a' ∈ archGrouped plays games year,
                      r.bin.1 ≤ a'.rank → a'.rank ≤ r.bin.2 → a'.rank ≤ a.rank)) := by
  have hperm : (archSorted plays games year).Perm (archGrouped plays games year) :=
    List.mergeSort_perm _ _
  have hsortnil : archSorted plays games year = [] ↔ archGrouped plays games year = [] := by
    have hlen := hperm.length_eq
    constructor
    · intro h
      rw [h] at hlen
      exact List.length_eq_zero.mp hlen.symm
    · intro h
      rw [h] at hlen
      simpa using List.length_eq_zero.mp hlen
  constructor
  · rw [archaeologist_data]
    cases hmx : maxI ((archSorted plays games year).map (fun r => r.rank)) with
    | none =>
      rw [maxI_none_iff, List.map_eq_nil_iff] at hmx
      simp [hmx, hsortnil.mp hmx]
    | some mx =>
      have : archSorted plays games year ≠ [] := by
        intro h
        rw [h] at hmx
        simp [maxI] at hmx
      simp only []
      constructor
      · intro h; cases h
      · intro h
        exact absurd (hsortnil.mpr h) this
  · intro out hout
    cases hmx : maxI ((archSorted plays games year).map (fun r => r.rank)) with
    | none => simp [archaeologist_data, hmx] at hout
    | some mx =>
      have hsorted_pw : (archSorted plays games year).Pairwise
          (fun a b => rankDescLe a b = true) :=
        List.sorted_mergeSort (intKeyLe_trans _) (intKeyLe_total _) _
      refine ⟨mx, rfl, ?_, ?_, ?_, ?_⟩
      · intro a ha
        exact maxI_ge_all hmx _ (List.mem_map.mpr ⟨a, hperm.symm.mem_iff.mp ha, rfl⟩)
      · rcases List.mem_map.mp (maxI_mem_list hmx) with ⟨a, ha, hrk⟩
        exact ⟨a, hperm.mem_iff.mp ha, hrk⟩
      · simp only [archaeologist_data, hmx, Option.some.injEq] at hout
        rw [← hout]
        simp only [List.map_map]
        refine List.map_congr_left ?_
        intro i hi
        dsimp only [Function.comp]
        cases hh : ((archSorted plays games year).filter (fun r =>
            decide ((2000 : Int) + 1000 * i - 1000 < r.rank)
              && decide (r.rank ≤ (2000 : Int) + 1000 * i))).head? <;>
          dsimp only <;> simp only [Prod.mk.injEq] <;> exact ⟨by omega, trivial⟩
      · intro r hr
        simp only [archaeologist_data, hmx, Option.some.injEq] at hout
        rcases List.mem_map.mp (hout ▸ hr) with ⟨b, hb, hrb⟩
        cases hh : ((archSorted plays games year).filter (fun r =>
            decide (b - 1000 < r.rank) && decide (r.rank ≤ b))).head? with
        | none =>
          rw [hh] at hrb
          dsimp only at hrb
          subst hrb
          refine ⟨rfl, Or.inl ⟨rfl, rfl, rfl, rfl, ?_⟩⟩
          rintro ⟨a, ha, h1, h2⟩
          have h1' : b - 999 ≤ a.rank := h1
          have h2' : a.rank ≤ b := h2
          have hmem : a ∈ archSorted plays games year := hperm.symm.mem_iff.mp ha
          have : a ∈ (archSorted plays games year).filter (fun r =>
              decide (b - 1000 < r.rank) && decide (r.rank ≤ b)) := by
            refine List.mem_filter.mpr ⟨hmem, ?_⟩
            simp only [Bool.and_eq_true, decide_eq_true_eq]
            omega
          rw [List.head?_eq_none_iff.mp hh] at this
          cases this
        | some a =>
          rw [hh] at hrb
          dsimp only at hrb
          subst hrb
          have hmemf := mem_of_head? hh
          rcases List.mem_filter.mp hmemf with ⟨hmem, hcond⟩
          simp only [Bool.and_eq_true, decide_eq_true_eq] at hcond
          have hb1 : b - 999 ≤ a.rank := by omega
          refine ⟨rfl, Or.inr ⟨a, hperm.mem_iff.mp hmem, ⟨hb1, hcond.2⟩,
            rfl, rfl, rfl, rfl, ?_⟩⟩
          intro a' ha' h1 h2
          have h1' : b - 999 ≤ a'.rank := h1
          have h2' : a'.rank ≤ b := h2
          have ha's : a' ∈ archSorted plays games year := hperm.symm.mem_iff.mp ha'
          have ha'f : a' ∈ (archSorted plays games year).filter (fun r =>
              decide (b - 1000 < r.rank) && decide (r.rank ≤ b)) := by
            refine List.mem_filter.mpr ⟨ha's, ?_⟩
            simp only [Bool.and_eq_true, decide_eq_true_eq]
            omega
          have hpwf := hsorted_pw.filter (fun r =>
              decide (b - 1000 < r.rank) && decide (r.rank ≤ b))
          rcases head_first_of_pairwise hpwf hh a' ha'f with rfl | hle
          · omega
          · simp only [rankDescLe, intKeyLe, decide_eq_true_eq] at hle
            omega

set_option maxRecDepth 8000 in
unseal List.merge List.mergeSort in
/-- C5 counterexample: with plays of games ranked 500 (Jan 1), 1200
(Jan 5) and 1500 (Mar 1) in 2021, the output has no 1-1000 bucket (the
rank-500 game is dropped), and the 1001-2000 bucket reports the
rank-1500 game although the rank-1200 game was played earlier. -/
theorem C5_counterexample_buckets :
    (archaeologist_data
        [⟨1, 3, ⟨2021, 1, 5⟩, 1⟩, ⟨2, 2, ⟨2021, 3, 1⟩, 1⟩, ⟨3, 1, ⟨2021, 1, 1⟩, 1⟩]
        [⟨1, "A", 0, some 500, some 2000⟩, ⟨2, "B", 0, some 1500, some 2000⟩,
         ⟨3, "C", 0, some 1200, some 2000⟩] 2021).map
      (fun l => l.map (fun r => (r.bin, r.rank, r.gameid)))
      = some [((1001, 2000), 1500, some 2), ((2001, 3000), -1, none),
          ((3001, 4000), -1, none), ((4001, 5000), -1, none), ((5001, 6000), -1, none),
          ((6001, 7000), -1, none), ((7001, 8000), -1, none), ((8001, 9000), -1, none),
          ((9001, 10000), -1, none)] := by decide

/-- The 366 `(month, day)` pairs of a leap-year calendar, month by
month — the spec's description of the date histogram's row set. -/
def leapCalendarDays : List (Nat × Nat) :=
  (List.range 12).flatMap (fun m =>
    (List.range (monthLength 2000 (m + 1))).map (fun d => (m + 1, d + 1)))

theorem dpFrame_eq (rows : List PRow) : dpFrame rows = rows.map (fun r =>
    (⟨r.play, writeCell "day" (.int (r.play.date.day : Int))
      (writeCell "month" (.int (r.play.date.month : Int)) r.extra)⟩ : PRow)) := by
  rw [dpFrame, setCol, setCol, List.map_map]
  rfl

theorem mdKey_write (r : PRow) :
    mdKey (⟨r.play, writeCell "day" (.int (r.play.date.day : Int))
      (writeCell "month" (.int (r.play.date.month : Int)) r.extra)⟩ : PRow)
      = ((r.play.date.month : Int), (r.play.date.day : Int)) := by
  have h1 : getCell "month" (writeCell "day" (.int (r.play.date.day : Int))
      (writeCell "month" (.int (r.play.date.month : Int)) r.extra))
      = .int (r.play.date.month : Int) := by
    rw [getCell_writeCell_other _ _ _ _ (by decide), getCell_writeCell_same]
  have h2 : getCell "day" (writeCell "day" (.int (r.play.date.day : Int))
      (writeCell "month" (.int (r.play.date.month : Int)) r.extra))
      = .int (r.play.date.day : Int) := getCell_writeCell_same _ _ _
  simp [mdKey, h1, h2, cellInt]

theorem dp_fiber_sum (rows : List PRow) (md : Int × Int) :
    ((fiber mdKey md (dpFrame rows)).map (fun r => r.play.quantity)).sum
      = ((rows.filter (fun r => decide (((r.play.date.month : Int),
          (r.play.date.day : Int)) = md))).map (fun r => r.play.quantity)).sum := by
  rw [dpFrame_eq, fiber, List.filter_map]
  have hf : rows.filter ((fun a => decide (mdKey a = md)) ∘ (fun r =>
      (⟨r.play, writeCell "day" (.int (r.play.date.day : Int))
        (writeCell "month" (.int (r.play.date.month : Int)) r.extra)⟩ : PRow)))
      = rows.filter (fun r => decide (((r.play.date.month : Int),
          (r.play.date.day : Int)) = md)) :=
    List.filter_congr (fun r _ => by simp [Function.comp, mdKey_write])
  rw [hf, List.map_map]
  congr 1

theorem dp_keys_iff (rows : List PRow) (md : Int × Int) :
    md ∈ groupKeys mdKey pairIntLe (dpFrame rows) ↔
      ∃ r ∈ rows, ((r.play.date.month : Int), (r.play.date.day : Int)) = md := by
  rw [mem_groupKeys]
  constructor
  · rintro ⟨a, ha, hk⟩
    rw [dpFrame_eq] at ha
    rcases List.mem_map.mp ha with ⟨r, hr, rfl⟩
    exact ⟨r, hr, by rw [← mdKey_write r]; exact hk⟩
  · rintro ⟨r, hr, hk⟩
    refine ⟨(⟨r.play, writeCell "day" (.int (r.play.date.day : Int))
        (writeCell "month" (.int (r.play.date.month : Int)) r.extra)⟩ : PRow), ?_, ?_⟩
    · rw [dpFrame_eq]
      exact List.mem_map.mpr ⟨r, hr, rfl⟩
    · rw [mdKey_write]
      exact hk

set_option maxRecDepth 16000 in
/-- C6: for every play history, the date histogram has exactly 366
rows, one per `(month, day)` of a leap-year calendar (February 29
included); each row's total is the sum of the quantities of the plays
on that month and day across all years (0 when there are none), and
rows are sorted ascending by total with ties in calendar order. -/
theorem C6_dateplays_histogram (rows : List PRow) :
    ((dateplays_data rows).1).length = 366
    ∧ (((dateplays_data rows).1).map (fun r => (r.month, r.day))).Perm leapCalendarDays
    ∧ (∀ r ∈ (dateplays_data rows).1,
        r.plays = ((rows.filter (fun p => decide (p.play.date.month = r.month)
            && decide (p.play.date.day = r.day))).map (fun p => p.play.quantity)).sum)
    ∧ ((dateplays_data rows).1).Pairwise (fun a b =>
        a.plays < b.plays ∨ (a.plays = b.plays
          ∧ (a.month < b.month ∨ (a.month = b.month ∧ a.day ≤ b.day)))) := by
  have hperm : ((dateplays_data rows).1).Perm (dpRows rows) := List.mergeSort_perm _ _
  refine ⟨?_, ?_, ?_, ?_⟩
  · rw [hperm.length_eq, dpRows, List.length_map, dpDays, List.length_map,
      List.length_range]
  · refine (hperm.map _).trans ?_
    have h1 : (dpRows rows).map (fun r => (r.month, r.day))
        = dpDays.map (fun d => (d.month, d.day)) := by
      rw [dpRows, List.map_map]
      refine List.map_congr_left ?_
      intro d hd
      dsimp only [Function.comp]
      cases hfind : (dpTotals (dpFrame rows)).find? (fun t =>
          t.1 == ((d.month : Int), (d.day : Int))) <;> dsimp only
    have h2 : dpDays.map (fun d => (d.month, d.day)) = leapCalendarDays := by decide
    rw [h1, h2]
  · intro r hr
    rcases List.mem_map.mp (hperm.mem_iff.mp hr) with ⟨d, hd, hrd⟩
    cases hfind : (dpTotals (dpFrame rows)).find? (fun t =>
        t.1 == ((d.month : Int), (d.day : Int))) with
    | none =>
      rw [hfind] at hrd
      dsimp only at hrd
      subst hrd
      have hnone := List.find?_eq_none.mp hfind
      have hempty : rows.filter (fun p => decide (p.play.date.month = d.month)
          && decide (p.play.date.day = d.day)) = [] := by
        rw [List.filter_eq_nil_iff]
        intro p hp hcond
        simp only [Bool.and_eq_true, decide_eq_true_eq] at hcond
        have hkey : ((d.month : Int), (d.day : Int))
            ∈ groupKeys mdKey pairIntLe (dpFrame rows) :=
          (dp_keys_iff rows _).mpr ⟨p, hp, by rw [hcond.1, hcond.2]⟩
        have : (((d.month : Int), (d.day : Int)),
            ((fiber mdKey ((d.month : Int), (d.day : Int)) (dpFrame rows)).map
              (fun r => r.play.quantity)).sum) ∈ dpTotals (dpFrame rows) :=
          List.mem_map.mpr ⟨_, hkey, rfl⟩
        exact absurd (by simp : ((((d.month : Int), (d.day : Int)),
            ((fiber mdKey ((d.month : Int), (d.day : Int)) (dpFrame rows)).map
              (fun r => r.play.quantity)).sum).1
              == ((d.month : Int), (d.day : Int))) = true) (hnone _ this)
      show (0 : Int) = ((rows.filter (fun p => decide (p.play.date.month = d.month)
          && decide (p.play.date.day = d.day))).map (fun p => p.play.quantity)).sum
      rw [hempty]
      rfl
    | some t =>
      rw [hfind] at hrd
      dsimp only at hrd
      subst hrd
      have hpred := List.find?_some hfind
      simp only [beq_iff_eq] at hpred
      rcases List.mem_map.mp (List.mem_of_find?_eq_some hfind) with ⟨md, hmd, hmdt⟩
      have ht1 : t.1 = md := by rw [← hmdt]
      have ht2 : t.2 = ((fiber mdKey md (dpFrame rows)).map (fun r => r.play.quantity)).sum := by
        rw [← hmdt]
      show t.2 = ((rows.filter (fun p => decide (p.play.date.month = d.month)
          && decide (p.play.date.day = d.day))).map (fun p => p.play.quantity)).sum
      rw [ht2, dp_fiber_sum, ← ht1, hpred]
      congr 1
      congr 1
      refine List.filter_congr ?_
      intro p hp
      simp [Prod.ext_iff, Nat.cast_inj]
  · have hs : ((dateplays_data rows).1).Pairwise (fun a b => dpLe a b = true) :=
      List.sorted_mergeSort
        (lexLe_trans _ _ (lexLe_trans _ _ (intKeyLe_trans _)))
        (lexLe_total _ _ (lexLe_total _ _ (intKeyLe_total _))) _
    refine hs.imp ?_
    intro a b hab
    simp only [dpLe, lexLe, intKeyLe, Bool.or_eq_true, Bool.and_eq_true,
      decide_eq_true_eq] at hab
    rcases hab with h | ⟨h1, h | ⟨h2, h3⟩⟩
    · exact Or.inl h
    · exact Or.inr ⟨h1, Or.inl (by exact_mod_cast h)⟩
    · exact Or.inr ⟨h1, Or.inr ⟨by exact_mod_cast h2, by exact_mod_cast h3⟩⟩

theorem ttyGrouped_covers {plays : List Play} {games : List Game} {year : Nat}
    {p : Int × JRow} (hp : p ∈ ttyKeyed plays games year) :
    ∃ a ∈ ttyGrouped plays games year, a.pubYear = p.1 ∧ a.date = p.2.date := by
  have hkey : ydKey p ∈ groupKeys ydKey ydLe (ttyKeyed plays games year) :=
    (mem_groupKeys _ _ _ _).mpr ⟨p, hp, rfl⟩
  have hpfib : p ∈ fiber ydKey (ydKey p) (ttyKeyed plays games year) :=
    List.mem_filter.mpr ⟨hp, by simp⟩
  cases hh : (fiber ydKey (ydKey p) (ttyKeyed plays games year)).head? with
  | none =>
    rw [List.head?_eq_none_iff.mp hh] at hpfib
    cases hpfib
  | some p0 =>
    refine ⟨⟨(ydKey p).1, (ydKey p).2, p0.2.gameid, p0.2.name⟩, ?_, rfl, rfl⟩
    exact List.mem_filterMap.mpr ⟨ydKey p, hkey, by rw [hh]; rfl⟩

theorem tty_sorted_perm (plays : List Play) (games : List Game) (year : Nat) :
    (ttySorted plays games year).Perm (ttyGrouped plays games year) :=
  List.mergeSort_perm _ _

theorem ttyFirstBY_mem_sorted {plays : List Play} {games : List Game} {year : Nat}
    {b : TTYAgg} (hb : b ∈ ttyFirstBY plays games year) :
    b ∈ ttySorted plays games year := by
  rcases List.mem_filterMap.mp hb with ⟨y', hy', hh⟩
  exact (List.mem_filter.mp (mem_of_head? hh)).1

theorem ttyFirstBY_head {plays : List Play} {games : List Game} {year : Nat}
    {b : TTYAgg} (hb : b ∈ ttyFirstBY plays games year) :
    (fiber (fun r => r.pubYear) b.pubYear (ttySorted plays games year)).head? = some b := by
  rcases List.mem_filterMap.mp hb with ⟨y', hy', hh⟩
  have hbf := mem_of_head? hh
  have hby : b.pubYear = y' := by
    have := (List.mem_filter.mp hbf).2
    simpa using this
  rw [hby]
  exact hh

theorem ttyFirstBY_covers {plays : List Play} {games : List Game} {year : Nat}
    {a : TTYAgg} (ha : a ∈ ttySorted plays games year) :
    ∃ b ∈ ttyFirstBY plays games year, b.pubYear = a.pubYear := by
  have hkey : a.pubYear ∈ groupKeys (fun r => r.pubYear) intLe (ttySorted plays games year) :=
    (mem_groupKeys _ _ _ _).mpr ⟨a, ha, rfl⟩
  have hafib : a ∈ fiber (fun r => r.pubYear) a.pubYear (ttySorted plays games year) :=
    List.mem_filter.mpr ⟨ha, by simp⟩
  cases hh : (fiber (fun r => r.pubYear) a.pubYear (ttySorted plays games year)).head? with
  | none =>
    rw [List.head?_eq_none_iff.mp hh] at hafib
    cases hafib
  | some b =>
    refine ⟨b, List.mem_filterMap.mpr ⟨a.pubYear, hkey, hh⟩, ?_⟩
    have := (List.mem_filter.mp (mem_of_head? hh)).2
    simpa using this

theorem tty_sorted_pairwise (plays : List Play) (games : List Game) (year : Nat) :
    (ttySorted plays games year).Pairwise
      (fun a b => a.date.toOrdinal ≤ b.date.toOrdinal) := by
  have hs : (ttySorted plays games year).Pairwise
      (fun a b => intKeyLe (fun r : TTYAgg => (r.date.toOrdinal : Int)) a b = true) :=
    List.sorted_mergeSort (intKeyLe_trans _) (intKeyLe_total _) _
  refine hs.imp ?_
  intro a b hab
  simp only [intKeyLe, decide_eq_true_eq] at hab
  exact_mod_cast hab

/-- C7 (amended): `through_the_years_data` outputs one row per year
from `TTY_START_YEAR` (1985) through the target year; a row's year is
blank when no play of the target year joins a non-expansion game
published that year, and otherwise reports an earliest-dated such play
with its game.  Plays of games published outside the 1985..target
range are not reported anywhere (see the counterexample). -/
theorem C7_through_the_years (plays : List Play) (games : List Game) (year : Nat) :
    (through_the_years_data plays games year).map (fun r => r.year) = ttyYears year
    ∧ ∀ r ∈ through_the_years_data plays games year,
        ((¬ ∃ t ∈ year_play_rows plays games year, t.pubYear = some r.year)
            ∧ r.date = none ∧ r.gameid = none ∧ r.name = "")
        ∨ ∃ t ∈ year_play_rows plays games year, t.pubYear = some r.year
            ∧ r.date = some t.date ∧ r.gameid = some t.gameid ∧ r.name = t.name.getD ""
            ∧ ∀ t' ∈ year_play_rows plays games year, t'.pubYear = some r.year →
                t.date.toOrdinal ≤ t'.date.toOrdinal := by
  constructor
  · rw [through_the_years_data, List.map_map]
    refine Eq.trans (List.map_congr_left ?_) (List.map_id' _)
    intro y hy
    dsimp only [Function.comp]
    cases hfind : (ttyFirstBY plays games year).find? (fun r => r.pubYear == y) <;>
      dsimp only
  · intro r hr
    rcases List.mem_map.mp hr with ⟨y, hy, hry⟩
    cases hfind : (ttyFirstBY plays games year).find? (fun r => r.pubYear == y) with
    | none =>
      rw [hfind] at hry
      dsimp only at hry
      subst hry
      refine Or.inl ⟨?_, rfl, rfl, rfl⟩
      rintro ⟨t, htm, hty⟩
      have hkeyed : ((y : Int), t) ∈ ttyKeyed plays games year :=
        List.mem_filterMap.mpr ⟨t, htm, by rw [hty]; rfl⟩
      rcases ttyGrouped_covers hkeyed with ⟨a, hag, hay, -⟩
      have has : a ∈ ttySorted plays games year :=
        (tty_sorted_perm plays games year).symm.mem_iff.mp hag
      rcases ttyFirstBY_covers has with ⟨b, hbf, hby⟩
      have := List.find?_eq_none.mp hfind b hbf
      rw [hby, hay] at this
      simp at this
    | some a =>
      rw [hfind] at hry
      dsimp only at hry
      subst hry
      have hay : a.pubYear = y := by
        have := List.find?_some hfind
        simpa using this
      have haf : a ∈ ttyFirstBY plays games year := List.mem_of_find?_eq_some hfind
      have has : a ∈ ttySorted plays games year := ttyFirstBY_mem_sorted haf
      have hag : a ∈ ttyGrouped plays games year :=
        (tty_sorted_perm plays games year).mem_iff.mp has
      rcases ttyGrouped_origin hag with ⟨t, htm, hty, htd, htg, htn⟩
      refine Or.inr ⟨t, htm, by rw [hty, hay], by rw [htd], by rw [htg],
        by rw [htn], ?_⟩
      intro t' ht'm ht'y
      have hk' : ((y : Int), t') ∈ ttyKeyed plays games year :=
        List.mem_filterMap.mpr ⟨t', ht'm, by rw [ht'y]; rfl⟩
      rcases ttyGrouped_covers hk' with ⟨a', ha'g, ha'y, ha'd⟩
      have ha's : a' ∈ ttySorted plays games year :=
        (tty_sorted_perm plays games year).symm.mem_iff.mp ha'g
      have ha'fib : a' ∈ fiber (fun r => r.pubYear) a.pubYear (ttySorted plays games year) :=
        List.mem_filter.mpr ⟨ha's, by simp [ha'y, hay]⟩
      have hpwf := (tty_sorted_pairwise plays games year).filter
          (fun r => decide (r.pubYear = a.pubYear))
      have hhead := ttyFirstBY_head haf
      rw [htd, ← ha'd]
      rcases head_first_of_pairwise hpwf hhead a' ha'fib with rfl | hle
      · exact le_refl _
      · exact hle

set_option maxRecDepth 8000 in
unseal List.merge List.mergeSort in
/-- C7 counterexample: a play (in 2020) of a game published in 1950 —
before `TTY_START_YEAR` — is reported by no row: every row of the
output is blank, although a qualifying publication year with a play
exists. -/
theorem C7_counterexample_pre1985_dropped :
    (through_the_years_data [⟨1, 42, ⟨2020, 5, 5⟩, 1⟩]
        [⟨42, "Old", 0, none, some 1950⟩] 2020).filter
      (fun r => decide (r.gameid ≠ none)) = [] := by decide

theorem filterMap_guard {α β : Type} (p : α → Bool) (f : α → β) (l : List α) :
    l.filterMap (fun a => if p a then some (f a) else none) = (l.filter p).map f := by
  induction l with
  | nil => simp
  | cons x xs ih => by_cases h : p x <;> simp [List.filter_cons, h, ih]

theorem maxD_spec {l : List Date} {d : Date} (h : maxD l = some d) :
    d ∈ l ∧ ∀ x ∈ l, x.toOrdinal ≤ d.toOrdinal := by
  cases l with
  | nil => simp [maxD] at h
  | cons x xs =>
    simp only [maxD, Option.some.injEq] at h
    exact h ▸ ⟨maxDCons_mem x xs, maxDCons_ge x xs⟩

theorem minD_spec {l : List Date} {d : Date} (h : minD l = some d) :
    d ∈ l ∧ ∀ x ∈ l, d.toOrdinal ≤ x.toOrdinal := by
  cases l with
  | nil => simp [minD] at h
  | cons x xs =>
    simp only [minD, Option.some.injEq] at h
    exact h ▸ ⟨minDCons_mem x xs, minDCons_le x xs⟩

theorem maxD_of_ne_nil {l : List Date} (h : l ≠ []) : ∃ d, maxD l = some d := by
  cases l with
  | nil => exact absurd rfl h
  | cons x xs => exact ⟨maxDCons x xs, rfl⟩

theorem minD_of_ne_nil {l : List Date} (h : l ≠ []) : ∃ d, minD l = some d := by
  cases l with
  | nil => exact absurd rfl h
  | cons x xs => exact ⟨minDCons x xs, rfl⟩

/-- The dates of game `g`'s plays strictly before `start` — the spec's
`last_before` candidate set. -/
def beforePlays (rows : List PRow) (g : Nat) (start : Date) : List Date :=
  (rows.filter (fun r => decide (r.play.gameid = g) && dateLT r.play.date start)).map
    (fun r => r.play.date)

/-- The dates of game `g`'s plays inside `[start, finish]` — the spec's
`first_during` candidate set. -/
def duringPlays (rows : List PRow) (g : Nat) (start finish : Date) : List Date :=
  (rows.filter (fun r => decide (r.play.gameid = g) && duringB start finish r.play)).map
    (fun r => r.play.date)

theorem dustFrame_eq (start finish : Date) (rows : List PRow) :
    dustFrame start finish rows = rows.map (fun r =>
      (⟨r.play, writeCell "during"
          (if duringB start finish r.play then .date r.play.date else .na)
        (writeCell "before"
          (if dateLT r.play.date start then .date r.play.date else .na) r.extra)⟩ : PRow)) := by
  rw [dustFrame, setCol, setCol, List.map_map]
  rfl

theorem dust_fiber_before (start finish : Date) (rows : List PRow) (g : Nat) :
    (fiber (fun r => r.play.gameid) g (dustFrame start finish rows)).filterMap
      (fun r => cellDate (getCell "before" r.extra)) = beforePlays rows g start := by
  rw [dustFrame_eq, fiber, List.filter_map, List.filterMap_map]
  have h1 : rows.filter ((fun a => decide (a.play.gameid = g)) ∘ (fun r =>
      (⟨r.play, writeCell "during"
          (if duringB start finish r.play then .date r.play.date else .na)
        (writeCell "before"
          (if dateLT r.play.date start then .date r.play.date else .na) r.extra)⟩ : PRow)))
      = rows.filter (fun r => decide (r.play.gameid = g)) :=
    List.filter_congr (fun r _ => rfl)
  rw [h1]
  have h2 : ∀ r : PRow,
      ((fun r : PRow => cellDate (getCell "before" r.extra)) ∘ (fun r =>
        (⟨r.play, writeCell "during"
            (if duringB start finish r.play then .date r.play.date else .na)
          (writeCell "before"
            (if dateLT r.play.date start then .date r.play.date else .na) r.extra)⟩ : PRow))) r
      = if dateLT r.play.date start then some r.play.date else none := by
    intro r
    simp only [Function.comp]
    rw [getCell_writeCell_other _ _ _ _ (by decide), getCell_writeCell_same]
    by_cases h : dateLT r.play.date start <;> simp [h, cellDate]
  rw [List.filterMap_congr (fun r _ => h2 r), filterMap_guard, beforePlays,
    List.filter_filter]
  congr 1
  exact List.filter_congr (fun r _ => by simp [Bool.and_comm])

theorem dust_fiber_during (start finish : Date) (rows : List PRow) (g : Nat) :
    (fiber (fun r => r.play.gameid) g (dustFrame start finish rows)).filterMap
      (fun r => cellDate (getCell "during" r.extra)) = duringPlays rows g start finish := by
  rw [dustFrame_eq, fiber, List.filter_map, List.filterMap_map]
  have h1 : rows.filter ((fun a => decide (a.play.gameid = g)) ∘ (fun r =>
      (⟨r.play, writeCell "during"
          (if duringB start finish r.play then .date r.play.date else .na)
        (writeCell "before"
          (if dateLT r.play.date start then .date r.play.date else .na) r.extra)⟩ : PRow)))
      = rows.filter (fun r => decide (r.play.gameid = g)) :=
    List.filter_congr (fun r _ => rfl)
  rw [h1]
  have h2 : ∀ r : PRow,
      ((fun r : PRow => cellDate (getCell "during" r.extra)) ∘ (fun r =>
        (⟨r.play, writeCell "during"
            (if duringB start finish r.play then .date r.play.date else .na)
          (writeCell "before"
            (if dateLT r.play.date start then .date r.play.date else .na) r.extra)⟩ : PRow))) r
      = if duringB start finish r.play then some r.play.date else none := by
    intro r
    simp only [Function.comp]
    rw [getCell_writeCell_same]
    by_cases h : duringB start finish r.play <;> simp [h, cellDate]
  rw [List.filterMap_congr (fun r _ => h2 r), filterMap_guard, duringPlays,
    List.filter_filter]
  congr 1
  exact List.filter_congr (fun r _ => by simp [Bool.and_comm])

theorem dust_keys_iff (start finish : Date) (rows : List PRow) (g : Nat) :
    g ∈ groupKeys (fun r => r.play.gameid) natLe (dustFrame start finish rows)
      ↔ ∃ r ∈ rows, r.play.gameid = g := by
  rw [mem_groupKeys]
  constructor
  · rintro ⟨a, ha, hk⟩
    rw [dustFrame_eq] at ha
    rcases List.mem_map.mp ha with ⟨r, hr, rfl⟩
    exact ⟨r, hr, hk⟩
  · rintro ⟨r, hr, hk⟩
    refine ⟨(⟨r.play, writeCell "during"
        (if duringB start finish r.play then .date r.play.date else .na)
      (writeCell "before"
        (if dateLT r.play.date start then .date r.play.date else .na) r.extra)⟩ : PRow),
      ?_, hk⟩
    rw [dustFrame_eq]
    exact List.mem_map.mpr ⟨r, hr, rfl⟩

/-- C8 (amended): a game that joins `Games ⋈ CollectionItems` appears
in the out-of-the-dust output iff it has at least one play strictly
before `start` and at least one play in `[start, finish]`, and the gap
from the latest pre-window play to the earliest in-window play is
strictly more than 365 days (365 does not qualify, 366 does).  Without
a collection row the game never appears, whatever its gap (see the
counterexample). -/
theorem C8_dust_gap_strict (rows : List PRow) (games : List Game)
    (collection : List CollectionItem) (start finish : Date) (g : Nat)
    (hjoin : ∃ gr ∈ game_data games collection, gr.gameid = g) :
    (∃ row ∈ (dust_data rows games collection start finish).1, row.gameid = g) ↔
      ∃ lb ∈ beforePlays rows g start, ∃ fd ∈ duringPlays rows g start finish,
        (∀ d ∈ beforePlays rows g start, d.toOrdinal ≤ lb.toOrdinal)
        ∧ (∀ d ∈ duringPlays rows g start finish, fd.toOrdinal ≤ d.toOrdinal)
        ∧ 365 < (fd.toOrdinal : Int) - (lb.toOrdinal : Int) := by
  constructor
  · rintro ⟨row, hrow, hrg⟩
    rcases (mem_innerJoin _ _ _ _ _).mp hrow with ⟨t, ht, gr, hgr, hm, rfl⟩
    have htg : t.1 = g := hrg
    rcases List.mem_filter.mp ht with ⟨ht1, hgap⟩
    simp only [decide_eq_true_eq] at hgap
    rcases List.mem_filterMap.mp ht1 with ⟨u, hu, hmatch⟩
    rcases List.mem_map.mp hu with ⟨k, hk, hku⟩
    cases h1 : u.2.1 with
    | none => rw [h1] at hmatch; simp at hmatch
    | some lb =>
      cases h2 : u.2.2 with
      | none => rw [h1, h2] at hmatch; simp at hmatch
      | some fd =>
        rw [h1, h2] at hmatch
        simp only [Option.some.injEq] at hmatch
        have hb : maxD ((fiber (fun r => r.play.gameid) k
            (dustFrame start finish rows)).filterMap
            (fun r => cellDate (getCell "before" r.extra))) = some lb := by
          have hh : maxD ((fiber (fun r => r.play.gameid) k
              (dustFrame start finish rows)).filterMap
              (fun r => cellDate (getCell "before" r.extra))) = u.2.1 := by
            rw [← hku]
          rw [hh, h1]
        have hd : minD ((fiber (fun r => r.play.gameid) k
            (dustFrame start finish rows)).filterMap
            (fun r => cellDate (getCell "during" r.extra))) = some fd := by
          have hh : minD ((fiber (fun r => r.play.gameid) k
              (dustFrame start finish rows)).filterMap
              (fun r => cellDate (getCell "during" r.extra))) = u.2.2 := by
            rw [← hku]
          rw [hh, h2]
        rw [dust_fiber_before] at hb
        rw [dust_fiber_during] at hd
        have hkg : k = g := by
          have h3 : u.1 = k := by rw [← hku]
          have h4 : t.1 = u.1 := by rw [← hmatch]
          rw [← htg, h4, h3]
        subst hkg
        rcases maxD_spec hb with ⟨hlbm, hlbge⟩
        rcases minD_spec hd with ⟨hfdm, hfdle⟩
        refine ⟨lb, hlbm, fd, hfdm, hlbge, hfdle, ?_⟩
        have : t.2.2.2 = (fd.toOrdinal : Int) - (lb.toOrdinal : Int) := by
          rw [← hmatch]
        rw [← this]
        exact hgap
  · rintro ⟨lb, hlb, fd, hfd, hmaxb, hminf, hgap⟩
    have hbne : beforePlays rows g start ≠ [] := by
      intro h; rw [h] at hlb; cases hlb
    have hdne : duringPlays rows g start finish ≠ [] := by
      intro h; rw [h] at hfd; cases hfd
    have hr0 : ∃ r ∈ rows, r.play.gameid = g := by
      rcases List.mem_map.mp (by
        rw [beforePlays] at hlb
        exact hlb : lb ∈ (rows.filter (fun r => decide (r.play.gameid = g)
          && dateLT r.play.date start)).map (fun r => r.play.date)) with ⟨r, hr, -⟩
      rcases List.mem_filter.mp hr with ⟨hrm, hcond⟩
      simp only [Bool.and_eq_true, decide_eq_true_eq] at hcond
      exact ⟨r, hrm, hcond.1⟩
    have hk : g ∈ groupKeys (fun r => r.play.gameid) natLe (dustFrame start finish rows) :=
      (dust_keys_iff start finish rows g).mpr hr0
    have hbeq := dust_fiber_before start finish rows g
    have hdeq := dust_fiber_during start finish rows g
    rcases maxD_of_ne_nil (hbeq ▸ hbne) with ⟨lb', hlb'⟩
    rcases minD_of_ne_nil (hdeq ▸ hdne) with ⟨fd', hfd'⟩
    have hlb's := maxD_spec (hbeq ▸ hlb')
    have hfd's := minD_spec (hdeq ▸ hfd')
    have hlbord : lb'.toOrdinal = lb.toOrdinal :=
      le_antisymm (hmaxb _ hlb's.1) (hlb's.2 _ hlb)
    have hfdord : fd'.toOrdinal = fd.toOrdinal :=
      le_antisymm (hfd's.2 _ hfd) (hminf _ hfd's.1)
    have humem : (g, maxD ((fiber (fun r => r.play.gameid) g
          (dustFrame start finish rows)).filterMap
          (fun r => cellDate (getCell "before" r.extra))),
        minD ((fiber (fun r => r.play.gameid) g
          (dustFrame start finish rows)).filterMap
          (fun r => cellDate (getCell "during" r.extra))))
        ∈ dustGrouped (dustFrame start finish rows) :=
      List.mem_map.mpr ⟨g, hk, rfl⟩
    have htmem : (g, lb', fd', ((fd'.toOrdinal : Int) - (lb'.toOrdinal : Int)))
        ∈ dustKept (dustFrame start finish rows) := by
      refine List.mem_filter.mpr ⟨?_, ?_⟩
      · refine List.mem_filterMap.mpr ⟨_, humem, ?_⟩
        rw [hlb', hfd']
      · simp only [decide_eq_true_eq]
        rw [hlbord, hfdord]
        exact hgap
    rcases hjoin with ⟨gr, hgrm, hgrg⟩
    refine ⟨⟨g, lb', fd', ((fd'.toOrdinal : Int) - (lb'.toOrdinal : Int)),
        gr.name, gr.expansion, gr.rating⟩, ?_, rfl⟩
    exact (mem_innerJoin _ _ _ _ _).mpr
      ⟨(g, lb', fd', ((fd'.toOrdinal : Int) - (lb'.toOrdinal : Int))), htmem,
        gr, hgrm, by simp [hgrg], rfl⟩

unseal List.merge List.mergeSort in
/-- C8 witness: game 3 with plays on 2019-01-01 and 2020-01-02, window
2020-01-01..2020-12-31 (a 366-day gap) and a collection row is
reported. -/
theorem C8_witness_366_gap :
    ∃ row ∈ (dust_data [⟨⟨1, 3, ⟨2019, 1, 1⟩, 1⟩, []⟩, ⟨⟨2, 3, ⟨2020, 1, 2⟩, 1⟩, []⟩]
        [⟨3, "G", 0, none, none⟩] [⟨"u", 3, 1, none⟩]
        ⟨2020, 1, 1⟩ ⟨2020, 12, 31⟩).1, row.gameid = 3 :=
  (C8_dust_gap_strict _ _ _ _ _ 3 (by decide)).mpr (by decide)

unseal List.merge List.mergeSort in
/-- C8 counterexample: the claimed equivalence fails in the `if`
direction when the game has no CollectionItem row — game 3 has plays
2019-01-01 (before) and 2020-01-02 (first in-window, a 366-day gap),
yet the output is empty because the collection is empty. -/
theorem C8_counterexample_needs_collection :
    (∃ lb ∈ beforePlays [⟨⟨1, 3, ⟨2019, 1, 1⟩, 1⟩, []⟩, ⟨⟨2, 3, ⟨2020, 1, 2⟩, 1⟩, []⟩]
        3 ⟨2020, 1, 1⟩,
      ∃ fd ∈ duringPlays [⟨⟨1, 3, ⟨2019, 1, 1⟩, 1⟩, []⟩, ⟨⟨2, 3, ⟨2020, 1, 2⟩, 1⟩, []⟩]
        3 ⟨2020, 1, 1⟩ ⟨2020, 12, 31⟩,
      365 < (fd.toOrdinal : Int) - (lb.toOrdinal : Int))
    ∧ (dust_data [⟨⟨1, 3, ⟨2019, 1, 1⟩, 1⟩, []⟩, ⟨⟨2, 3, ⟨2020, 1, 2⟩, 1⟩, []⟩]
        [⟨3, "G", 0, none, none⟩] [] ⟨2020, 1, 1⟩ ⟨2020, 12, 31⟩).1 = [] := by decide

/-- C9 (amended): in `annual_report_data`, the plays-by-publication-year
table is ordered by ascending publication year (strictly: one row per
year), the per-game table by descending play count with Python-string
name tie-break, and the five stats are always present, with value 0 on
an empty play history. -/
theorem C9_annual_tables (rows : List PRow) (games : List Game)
    (collection : List CollectionItem) (year : Nat) :
    ((annual_report_data rows games collection year).1.years).Pairwise
        (fun a b => a.1 < b.1)
    ∧ ((annual_report_data rows games collection year).1.games).Pairwise
        (fun a b => b.plays < a.plays ∨ (a.plays = b.plays ∧ pyStrLe a.name b.name = true))
    ∧ ((annual_report_data rows games collection year).1.stats).map Prod.fst
        = ["Total Plays", "New to Me", "Nickels", "Dimes", "H-Index"]
    ∧ (rows = [] → (annual_report_data rows games collection year).1.stats
        = [("Total Plays", 0), ("New to Me", 0), ("Nickels", 0), ("Dimes", 0),
           ("H-Index", 0)]) := by
  refine ⟨?_, ?_, rfl, ?_⟩
  · show (annualYears rows games year).Pairwise (fun a b => a.1 < b.1)
    rw [annualYears]
    refine List.Pairwise.filter _ ?_
    rw [List.pairwise_map]
    have hle : (groupKeys (fun p : Int × AGRow => p.1) intLe
        ((annualTotals rows games year).filterMap
          (fun r => r.year.map (fun y => (y, r))))).Pairwise
        (fun a b => intLe a b = true) :=
      List.sorted_mergeSort (intKeyLe_trans (fun x : Int => x))
        (intKeyLe_total (fun x : Int => x)) _
    have hne := nodup_groupKeys (fun p : Int × AGRow => p.1) intLe
        ((annualTotals rows games year).filterMap
          (fun r => r.year.map (fun y => (y, r))))
    refine (hle.and hne).imp ?_
    intro a b hab
    simp only [intLe, decide_eq_true_eq] at hab
    rcases hab with ⟨h1, h2⟩
    exact lt_of_le_of_ne h1 h2
  · show (annualTotals rows games year).Pairwise _
    have hs : (annualTotals rows games year).Pairwise
        (fun a b => annualLe a b = true) := by
      rw [annualTotals]
      exact List.sorted_mergeSort
        (lexLe_trans (fun r : AGRow => -r.plays) (fun a b => pyStrLe a.name b.name)
          (fun a b c h1 h2 => pyStrLe_trans _ _ _ h1 h2))
        (lexLe_total (fun r : AGRow => -r.plays) (fun a b => pyStrLe a.name b.name)
          (fun a b => pyStrLe_total _ _)) _
    refine hs.imp ?_
    intro a b hab
    simp only [annualLe, lexLe, Bool.or_eq_true, Bool.and_eq_true,
      decide_eq_true_eq] at hab
    rcases hab with h | ⟨h1, h2⟩
    · exact Or.inl (by omega)
    · exact Or.inr ⟨by omega, h2⟩
  · intro h
    subst h
    have ht : annualTotals [] games year = [] := by
      rw [annualTotals]
      simp [beforeDuringFrame, setCol, setColWhere, bdTotals, groupKeys, innerJoin]
    simp [annual_report_data, ht, annualYears, hindex_data, hindexSorted, hindexRows,
      play_totals, filterCutoff, groupKeys, innerJoin]

set_option maxRecDepth 8000 in
unseal List.merge List.mergeSort in
/-- C9 counterexample: with 5 plays of a game published 2000 and 1 play
of a game published 1990 (during 2021), the years table comes out
`[(1990, 1), (2000, 5)]` — ascending publication year — which is not
ordered by descending play count. -/
theorem C9_counterexample_years_by_year :
    (annual_report_data [⟨⟨1, 1, ⟨2021, 2, 1⟩, 5⟩, []⟩, ⟨⟨2, 2, ⟨2021, 3, 1⟩, 1⟩, []⟩]
        [⟨1, "A", 0, none, some 2000⟩, ⟨2, "B", 0, none, some 1990⟩]
        [⟨"u", 1, 1, some 8⟩, ⟨"u", 2, 1, some 7⟩] 2021).1.years
      = [(1990, 1), (2000, 5)]
    ∧ ¬ ((annual_report_data [⟨⟨1, 1, ⟨2021, 2, 1⟩, 5⟩, []⟩, ⟨⟨2, 2, ⟨2021, 3, 1⟩, 1⟩, []⟩]
        [⟨1, "A", 0, none, some 2000⟩, ⟨2, "B", 0, none, some 1990⟩]
        [⟨"u", 1, 1, some 8⟩, ⟨"u", 2, 1, some 7⟩] 2021).1.years).Pairwise
      (fun a b => b.2 ≤ a.2) := by decide

/-! ### C10: what the mutating reports do to the plays frame -/

theorem groupKeys_eq_of_map_eq {α β κ : Type} [DecidableEq κ]
    (k1 : α → κ) (k2 : β → κ) (le : κ → κ → Bool) (l1 : List α) (l2 : List β)
    (h : l1.map k1 = l2.map k2) : groupKeys k1 le l1 = groupKeys k2 le l2 := by
  rw [groupKeys, groupKeys, h]

theorem playField_factor {β : Type} (rows : List PRow) (pred : Play → Bool)
    (f : Play → β) :
    (rows.filter (fun r => pred r.play)).map (fun r => f r.play)
      = ((rows.map (fun r => r.play)).filter pred).map f := by
  rw [List.filter_map, List.map_map]
  rfl

/-- The per-row effect of the four `before`/`during` assignments of
`new_to_me_data` and `annual_report_data`. -/
def bdRow (start finish : Date) (r : PRow) : PRow :=
  ⟨r.play,
    (fun e3 => if duringB start finish r.play
        then writeCell "during" (.int r.play.quantity) e3 else e3)
      ((fun e2 => if dateLT r.play.date start
          then writeCell "before" (.int r.play.quantity) e2 else e2)
        (writeCell "during" (.int 0) (writeCell "before" (.int 0) r.extra)))⟩

theorem beforeDuringFrame_eq (start finish : Date) (rows : List PRow) :
    beforeDuringFrame start finish rows = rows.map (bdRow start finish) := by
  rw [beforeDuringFrame, setColWhere, setColWhere, setCol, setCol,
    List.map_map, List.map_map, List.map_map]
  refine List.map_congr_left ?_
  intro r _
  by_cases h1 : dateLT r.play.date start <;>
    by_cases h2 : duringB start finish r.play <;>
      simp [bdRow, Function.comp, h1, h2]

theorem bdRow_play (start finish : Date) (r : PRow) :
    (bdRow start finish r).play = r.play := rfl

theorem bdRow_during (start finish : Date) (r : PRow) :
    getCell "during" (bdRow start finish r).extra
      = .int (if duringB start finish r.play then r.play.quantity else 0) := by
  rw [bdRow]
  dsimp only
  by_cases h2 : duringB start finish r.play = true
  · rw [if_pos h2, if_pos h2, getCell_writeCell_same]
  · rw [if_neg h2, if_neg h2]
    by_cases h1 : dateLT r.play.date start = true
    · rw [if_pos h1, getCell_writeCell_other _ _ _ _ (by decide), getCell_writeCell_same]
    · rw [if_neg h1, getCell_writeCell_same]

theorem bdRow_before (start finish : Date) (r : PRow) :
    getCell "before" (bdRow start finish r).extra
      = .int (if dateLT r.play.date start then r.play.quantity else 0) := by
  rw [bdRow]
  dsimp only
  by_cases h1 : dateLT r.play.date start = true
  · rw [if_pos h1, if_pos h1]
    by_cases h2 : duringB start finish r.play = true
    · rw [if_pos h2, getCell_writeCell_other _ _ _ _ (by decide), getCell_writeCell_same]
    · rw [if_neg h2, getCell_writeCell_same]
  · rw [if_neg h1, if_neg h1]
    by_cases h2 : duringB start finish r.play = true
    · rw [if_pos h2, getCell_writeCell_other _ _ _ _ (by decide),
        getCell_writeCell_other _ _ _ _ (by decide), getCell_writeCell_same]
    · rw [if_neg h2, getCell_writeCell_other _ _ _ _ (by decide), getCell_writeCell_same]

/-- `bdTotals` of the assigned frame as a function of the persisted
plays alone: the during/before sums are conditional quantity sums. -/
def bdPure (plays : List Play) (start finish : Date) : List (Nat × Int × Int) :=
  (groupKeys (fun p : Play => p.gameid) natLe plays).map (fun g =>
    (g, ((plays.filter (fun p => decide (p.gameid = g))).map
          (fun p => if duringB start finish p then p.quantity else 0)).sum,
        ((plays.filter (fun p => decide (p.gameid = g))).map
          (fun p => if dateLT p.date start then p.quantity else 0)).sum))

theorem bdTotals_bd (start finish : Date) (rows : List PRow) :
    bdTotals (beforeDuringFrame start finish rows)
      = bdPure (rows.map (fun r => r.play)) start finish := by
  rw [bdTotals, bdPure]
  have hk : groupKeys (fun r : PRow => r.play.gameid) natLe
      (beforeDuringFrame start finish rows)
      = groupKeys (fun p : Play => p.gameid) natLe (rows.map (fun r => r.play)) := by
    refine groupKeys_eq_of_map_eq _ _ _ _ _ ?_
    rw [beforeDuringFrame_eq, List.map_map, List.map_map]
    rfl
  rw [hk]
  refine List.map_congr_left ?_
  intro g _
  have hfib : fiber (fun r : PRow => r.play.gameid) g (beforeDuringFrame start finish rows)
      = (rows.filter (fun r => decide (r.play.gameid = g))).map (bdRow start finish) := by
    rw [beforeDuringFrame_eq, fiber, List.filter_map]
    rfl
  have hd : sumCol "during"
      (fiber (fun r : PRow => r.play.gameid) g (beforeDuringFrame start finish rows))
      = (((rows.map (fun r => r.play)).filter (fun p => decide (p.gameid = g))).map
          (fun p => if duringB start finish p then p.quantity else 0)).sum := by
    rw [sumCol, hfib, List.map_map,
      ← playField_factor rows (fun p => decide (p.gameid = g))
        (fun p => if duringB start finish p then p.quantity else 0)]
    congr 1
    refine List.map_congr_left ?_
    intro r _
    simp only [Function.comp]
    rw [bdRow_during]
    by_cases h : duringB start finish r.play <;> simp [h, cellInt]
  have hb : sumCol "before"
      (fiber (fun r : PRow => r.play.gameid) g (beforeDuringFrame start finish rows))
      = (((rows.map (fun r => r.play)).filter (fun p => decide (p.gameid = g))).map
          (fun p => if dateLT p.date start then p.quantity else 0)).sum := by
    rw [sumCol, hfib, List.map_map,
      ← playField_factor rows (fun p => decide (p.gameid = g))
        (fun p => if dateLT p.date start then p.quantity else 0)]
    congr 1
    refine List.map_congr_left ?_
    intro r _
    simp only [Function.comp]
    rw [bdRow_before]
    by_cases h : dateLT r.play.date start <;> simp [h, cellInt]
  rw [hd, hb]

theorem beforeDuringFrame_play (start finish : Date) (rows : List PRow) :
    (beforeDuringFrame start finish rows).map (fun r => r.play)
      = rows.map (fun r => r.play) := by
  rw [beforeDuringFrame_eq, List.map_map]
  exact List.map_congr_left (fun r _ => rfl)

theorem dustFrame_play (start finish : Date) (rows : List PRow) :
    (dustFrame start finish rows).map (fun r => r.play)
      = rows.map (fun r => r.play) := by
  rw [dustFrame_eq, List.map_map]
  exact List.map_congr_left (fun r _ => rfl)

theorem dpFrame_play (rows : List PRow) :
    (dpFrame rows).map (fun r => r.play) = rows.map (fun r => r.play) := by
  rw [dpFrame_eq, List.map_map]
  exact List.map_congr_left (fun r _ => rfl)

theorem beforePlays_factor (rows : List PRow) (g : Nat) (start : Date) :
    beforePlays rows g start
      = ((rows.map (fun r => r.play)).filter
          (fun p => decide (p.gameid = g) && dateLT p.date start)).map (fun p => p.date) :=
  playField_factor rows (fun p => decide (p.gameid = g) && dateLT p.date start)
    (fun p => p.date)

theorem duringPlays_factor (rows : List PRow) (g : Nat) (start finish : Date) :
    duringPlays rows g start finish
      = ((rows.map (fun r => r.play)).filter
          (fun p => decide (p.gameid = g) && duringB start finish p)).map (fun p => p.date) :=
  playField_factor rows (fun p => decide (p.gameid = g) && duringB start finish p)
    (fun p => p.date)

/-- `dustGrouped ∘ dustFrame` as a function of the persisted plays alone. -/
def dustPure (plays : List Play) (start finish : Date) :
    List (Nat × Option Date × Option Date) :=
  (groupKeys (fun p : Play => p.gameid) natLe plays).map (fun g =>
    (g, maxD ((plays.filter (fun p => decide (p.gameid = g) && dateLT p.date start)).map
          (fun p => p.date)),
        minD ((plays.filter (fun p => decide (p.gameid = g) && duringB start finish p)).map
          (fun p => p.date))))

theorem dustGrouped_eq (start finish : Date) (rows : List PRow) :
    dustGrouped (dustFrame start finish rows)
      = dustPure (rows.map (fun r => r.play)) start finish := by
  rw [dustGrouped, dustPure]
  have hk : groupKeys (fun r : PRow => r.play.gameid) natLe (dustFrame start finish rows)
      = groupKeys (fun p : Play => p.gameid) natLe (rows.map (fun r => r.play)) := by
    refine groupKeys_eq_of_map_eq _ _ _ _ _ ?_
    rw [dustFrame_eq, List.map_map, List.map_map]
    rfl
  rw [hk]
  refine List.map_congr_left ?_
  intro g _
  rw [dust_fiber_before, dust_fiber_during, beforePlays_factor, duringPlays_factor]

/-- `dpTotals ∘ dpFrame` as a function of the persisted plays alone. -/
def dpPure (plays : List Play) : List ((Int × Int) × Int) :=
  (groupKeys (fun p : Play => ((p.date.month : Int), (p.date.day : Int))) pairIntLe
      plays).map (fun md =>
    (md, ((plays.filter (fun p => decide (((p.date.month : Int),
            (p.date.day : Int)) = md))).map (fun p => p.quantity)).sum))

theorem dpTotals_eq (rows : List PRow) :
    dpTotals (dpFrame rows) = dpPure (rows.map (fun r => r.play)) := by
  rw [dpTotals, dpPure]
  have hk : groupKeys mdKey pairIntLe (dpFrame rows)
      = groupKeys (fun p : Play => ((p.date.month : Int), (p.date.day : Int))) pairIntLe
          (rows.map (fun r => r.play)) := by
    refine groupKeys_eq_of_map_eq _ _ _ _ _ ?_
    rw [dpFrame_eq, List.map_map, List.map_map]
    refine List.map_congr_left ?_
    intro r _
    exact mdKey_write r
  rw [hk]
  refine List.map_congr_left ?_
  intro md _
  rw [dp_fiber_sum,
    ← playField_factor rows (fun p => decide (((p.date.month : Int),
        (p.date.day : Int)) = md)) (fun p => p.quantity)]

theorem new_to_me_congr (rows1 rows2 : List PRow) (games : List Game)
    (collection : List CollectionItem) (start finish : Date)
    (h : rows1.map (fun r => r.play) = rows2.map (fun r => r.play)) :
    (new_to_me_data rows1 games collection start finish).1
      = (new_to_me_data rows2 games collection start finish).1 := by
  simp only [new_to_me_data]
  rw [bdTotals_bd, bdTotals_bd, h]

theorem dust_congr (rows1 rows2 : List PRow) (games : List Game)
    (collection : List CollectionItem) (start finish : Date)
    (h : rows1.map (fun r => r.play) = rows2.map (fun r => r.play)) :
    (dust_data rows1 games collection start finish).1
      = (dust_data rows2 games collection start finish).1 := by
  simp only [dust_data, dustKept]
  rw [dustGrouped_eq, dustGrouped_eq, h]

theorem dateplays_congr (rows1 rows2 : List PRow)
    (h : rows1.map (fun r => r.play) = rows2.map (fun r => r.play)) :
    (dateplays_data rows1).1 = (dateplays_data rows2).1 := by
  simp only [dateplays_data, dpRows]
  rw [dpTotals_eq, dpTotals_eq, h]

theorem annual_congr (rows1 rows2 : List PRow) (games : List Game)
    (collection : List CollectionItem) (year : Nat)
    (h : rows1.map (fun r => r.play) = rows2.map (fun r => r.play)) :
    (annual_report_data rows1 games collection year).1
      = (annual_report_data rows2 games collection year).1 := by
  have ht : annualTotals rows1 games year = annualTotals rows2 games year := by
    simp only [annualTotals]
    rw [bdTotals_bd, bdTotals_bd, h]
  have hy : annualYears rows1 games year = annualYears rows2 games year := by
    simp only [annualYears]
    rw [ht]
  simp only [annual_report_data]
  rw [ht, hy, h]

/-- C10 (amended): the report functions never add, drop or reorder rows
of the plays frame and never change its persisted play fields — but
`new_to_me_data`, `dust_data`, `dateplays_data` and
`annual_report_data` DO mutate the frame in place, assigning helper
columns (`before`/`during`, or `month`/`day`) onto it, so the frame
object is not left unchanged (see the counterexample).  The games and
collection inputs are never written, and `hindex_data`,
`through_the_years_data` and `archaeologist_data` take the plays by
value in this embedding because they only read persisted fields.
Because every output is determined by the persisted fields alone,
running any mutating report a second time on the frame the first run
left behind still yields the identical output, including order. -/
theorem C10_frame_and_idempotence (rows : List PRow) (games : List Game)
    (collection : List CollectionItem) (start finish : Date) (year : Nat) :
    ((new_to_me_data rows games collection start finish).2.map (fun r => r.play)
        = rows.map (fun r => r.play)
      ∧ (dust_data rows games collection start finish).2.map (fun r => r.play)
        = rows.map (fun r => r.play)
      ∧ (dateplays_data rows).2.map (fun r => r.play) = rows.map (fun r => r.play)
      ∧ (annual_report_data rows games collection year).2.map (fun r => r.play)
        = rows.map (fun r => r.play))
    ∧ ((new_to_me_data (new_to_me_data rows games collection start finish).2
          games collection start finish).1
        = (new_to_me_data rows games collection start finish).1
      ∧ (dust_data (dust_data rows games collection start finish).2
          games collection start finish).1
        = (dust_data rows games collection start finish).1
      ∧ (dateplays_data (dateplays_data rows).2).1 = (dateplays_data rows).1
      ∧ (annual_report_data (annual_report_data rows games collection year).2
          games collection year).1
        = (annual_report_data rows games collection year).1) :=
  ⟨⟨beforeDuringFrame_play start finish rows,
    dustFrame_play start finish rows,
    dpFrame_play rows,
    beforeDuringFrame_play ⟨year, 1, 1⟩ ⟨year, 12, 31⟩ rows⟩,
   new_to_me_congr _ _ games collection start finish
     (beforeDuringFrame_play start finish rows),
   dust_congr _ _ games collection start finish (dustFrame_play start finish rows),
   dateplays_congr _ _ (dpFrame_play rows),
   annual_congr _ _ games collection year
     (beforeDuringFrame_play ⟨year, 1, 1⟩ ⟨year, 12, 31⟩ rows)⟩

/-- C10 counterexample to "the Plays input is unchanged":
`new_to_me_data` hands back a plays frame with `before`/`during`
columns written onto the row, so the frame differs from the input. -/
theorem C10_counterexample_plays_mutated :
    (new_to_me_data [⟨⟨1, 1, ⟨2021, 3, 4⟩, 1⟩, []⟩] [] [] ⟨2021, 1, 1⟩
        ⟨2021, 12, 31⟩).2
      ≠ [⟨⟨1, 1, ⟨2021, 3, 4⟩, 1⟩, []⟩] := by decide
